import Mathlib

/-!
YimMenuV1 game-data service: a shallow embedding of `gta_data_service.cpp`.

The development follows `src/services/gta_data/gta_data_service.cpp`.

* Text (`const char*`, `std::string`) is a Lean `String`; one `Char` stands for one
  C `char`, and XML text never holds the NUL character.
* `std::vector` is a `List` in push order.  `std::unordered_map` / `std::map` are
  association lists in iteration order; the order of iteration is not fixed by the
  sources and no statement below depends on it.
* 32-bit hashes are natural numbers; no arithmetic is ever done on them.
* Everything the file calls but does not define (the hash function, the crash
  denylists, the script functions of the running game, the sizes of the fixed
  character arrays of `gta_data_service.hpp`) is a field of `Game`, so every
  theorem holds for all of them.
* A character array that holds no NUL is read on into the bytes behind it; those
  bytes are the parameter `memory_after` of the loaders.
-/

namespace big

/-! ## Strings -/

/-- The `std::string::starts_with` test. -/
def starts_with (s p : String) : Bool := p.data.isPrefixOf s.data

/-- The `std::string::ends_with` test. -/
def ends_with (s p : String) : Bool := p.data.reverse.isPrefixOf s.data.reverse

/-- Substring test on character lists. -/
def contains_chars (sub : List Char) : List Char → Bool
  | [] => sub.isEmpty
  | c :: cs => sub.isPrefixOf (c :: cs) || contains_chars sub cs

/-- The `std::string::contains` test (also `s.find(sub) != npos`). -/
def str_contains (s sub : String) : Bool := contains_chars sub.data s.data

/-- The `std::string::find(char)` result: the index of the first occurrence, `none` for `npos`. -/
def find_char (c : Char) : List Char → Option Nat
  | [] => none
  | x :: xs => if x = c then some 0 else (find_char c xs).map (· + 1)

/-- The value of `std::find(arr.begin(), arr.end(), val) != arr.end()` (the `exists` lambda of
`rebuild_cache`). -/
def hash_exists (arr : List Nat) (val : Nat) : Bool := arr.contains val

/-- The call `std::transform(name.begin(), name.end(), name.begin(), ::toupper)`: every
character through `toupper`. -/
def to_upper (name : String) : String := String.mk (name.data.map Char.toUpper)

/-- The NUL character. -/
def NUL : Char := Char.ofNat 0

/-- The call `std::strncpy(dst, src, n)` on a zeroed `char dst[n]`: the first `n` characters of
`src`, padded with NUL up to `n`; nothing is appended when `src` has `n` characters or more. -/
def strncpy (src : String) (n : Nat) : List Char :=
  src.data.take n ++ List.replicate (n - src.data.length) NUL

/-- Reading a `char[n]` field as a C string (the implicit `std::string(const char*)`
conversion): the characters before the first NUL, where the read starts in `field` and, when
`field` holds no NUL, runs on into `following`, the bytes that lie after the array in
memory (as many of them as the read takes to meet a NUL). -/
def read_c_string (field following : List Char) : String :=
  String.mk ((field ++ following).takeWhile (· ≠ NUL))

/-! ## External collaborators -/

/-- What the translation unit uses but does not define. -/
structure Game where
  /-- The function `rage::joaat` (also the `_J` literal suffix). -/
  joaat : String → Nat
  /-- The denylist oracle `protection::is_crash_ped`. -/
  is_crash_ped : Nat → Bool
  /-- The denylist oracle `protection::is_crash_vehicle`. -/
  is_crash_vehicle : Nat → Bool
  /-- The script call `scr_functions::get_component_name_string`; `none` is `nullptr`. -/
  get_component_name_string : Nat → Nat → Option String
  /-- The script call `scr_functions::get_component_desc_string`; `none` is `nullptr`. -/
  get_component_desc_string : Nat → Nat → Option String
  /-- The script call `scr_functions::get_weapon_desc_string`. -/
  get_weapon_desc_string : Nat → Bool → String
  /-- The array size `sizeof(ped_item::m_name)`. -/
  sizeof_ped_name : Nat
  /-- The array size `sizeof(ped_item::m_ped_type)`. -/
  sizeof_ped_type : Nat
  /-- The array size `sizeof(vehicle_item::m_name)`. -/
  sizeof_vehicle_name : Nat
  /-- The array size `sizeof(vehicle_item::m_display_manufacturer)`. -/
  sizeof_display_manufacturer : Nat
  /-- The array size `sizeof(vehicle_item::m_display_name)`. -/
  sizeof_display_name : Nat
  /-- The array size `sizeof(vehicle_item::m_vehicle_class)`. -/
  sizeof_vehicle_class : Nat

/-! ## Data model -/

/-- Modelled from the spec: the enumeration `RPFDatafileSource` of the header that is not among
the sources, with the precedence order UNKNOWN < BASE < UPDATE < DLC < DLC_PATCH of the data
model (`DLCUPDATE` is the DLC_PATCH tag returned for paths under `/dlc_patch/`). -/
inductive RPFDatafileSource where
  | UNKNOWN
  | BASE
  | UPDATE
  | DLC
  | DLCUPDATE
  deriving DecidableEq, Repr

/-- Modelled from the spec: the underlying value of a source tag, which the comparison
`a.rpf_file_type > b.rpf_file_type` uses. -/
def RPFDatafileSource.rank : RPFDatafileSource → Nat
  | .UNKNOWN => 0
  | .BASE => 1
  | .UPDATE => 2
  | .DLC => 3
  | .DLCUPDATE => 4

/-- The record `ped_item`: two fixed character arrays and the hash. -/
structure ped_item where
  m_name : List Char
  m_ped_type : List Char
  m_hash : Nat
  deriving DecidableEq, Repr

/-- The record `vehicle_item`: four fixed character arrays and the hash. -/
structure vehicle_item where
  m_name : List Char
  m_display_manufacturer : List Char
  m_display_name : List Char
  m_vehicle_class : List Char
  m_hash : Nat
  deriving DecidableEq, Repr

/-- The record `weapon_item`.  The two reward hashes are optional (`none`: never assigned). -/
structure weapon_item where
  m_name : String
  m_display_name : String
  m_display_desc : String
  m_weapon_type : String
  m_throwable : Bool
  m_reward_hash : Option Nat
  m_reward_ammo_hash : Option Nat
  m_attachments : List String
  m_hash : Nat
  deriving DecidableEq, Repr

/-- The record `weapon_item_parsed`: a `weapon_item` with the tag of the archive it came from. -/
structure weapon_item_parsed extends weapon_item where
  rpf_file_type : RPFDatafileSource
  deriving DecidableEq, Repr

/-- The record `weapon_component`. -/
structure weapon_component where
  m_name : String
  m_hash : Nat
  m_display_name : String
  m_display_desc : String
  deriving DecidableEq, Repr

/-- The bytes that lie in memory after a character array of the record copy made in
iteration `i` of a load loop (`const auto ped = cached_peds[i];`): what the conversion to
`std::string` goes on to read when the array holds no NUL.  They depend on the record layout
of `gta_data_service.hpp` and on the stack, neither of which the sources fix, so the loaders
take them as a parameter and every theorem holds for all of them. -/
structure memory_after where
  ped_name : Nat → ped_item → List Char
  ped_type : Nat → ped_item → List Char
  vehicle_name : Nat → vehicle_item → List Char
  vehicle_class : Nat → vehicle_item → List Char

/-! ## Source tags and the weapon collision rule -/

/-- The function `determine_file_type`. -/
def determine_file_type (file_path rpf_filename : String) : RPFDatafileSource :=
  if str_contains file_path "/dlc_patch/" then .DLCUPDATE
  else if rpf_filename = "dlc.rpf" then .DLC
  else if rpf_filename = "update.rpf" then .UPDATE
  else if rpf_filename = "common.rpf" then .BASE
  else .UNKNOWN

/-- The lookup `weapons[hash]` of an `std::unordered_map<Hash, weapon_item_parsed>`;
`none` when `weapons.contains(hash)` is false. -/
def umap_find (weapons : List (Nat × weapon_item_parsed)) (hash : Nat) :
    Option weapon_item_parsed :=
  match weapons with
  | [] => none
  | (k, v) :: rest => if k = hash then some v else umap_find rest hash

/-- The assignment `weapons[hash] = weapon`: overwrite the entry of `hash`, or add one. -/
def umap_assign (weapons : List (Nat × weapon_item_parsed)) (hash : Nat)
    (weapon : weapon_item_parsed) : List (Nat × weapon_item_parsed) :=
  match weapons with
  | [] => [(hash, weapon)]
  | (k, v) :: rest =>
    if k = hash then (k, weapon) :: rest else (k, v) :: umap_assign rest hash weapon

/-- The collision rule at the end of the weapon handler's loop body:
`if (weapons.contains(hash)) { if (weapons[hash].rpf_file_type > weapon.rpf_file_type) continue; }`
followed by `weapons[hash] = weapon;`. -/
def store_weapon (weapons : List (Nat × weapon_item_parsed)) (hash : Nat)
    (weapon : weapon_item_parsed) : List (Nat × weapon_item_parsed) :=
  match umap_find weapons hash with
  | some stored =>
    if stored.rpf_file_type.rank > weapon.rpf_file_type.rank then weapons
    else umap_assign weapons hash weapon
  | none => umap_assign weapons hash weapon

/-! ## Archive entries -/

/-- An `Item` node of `vehicles.meta`: the text of the children the handler reads. -/
structure vehicle_node where
  modelName : String
  vehicleMakeName : String
  gameName : String
  vehicleClass : String
  deriving DecidableEq, Repr

/-- An `Item` node of a weapon-component file (of one of the six selected types). -/
structure component_node where
  Name : String
  LocName : String
  LocDesc : String
  deriving DecidableEq, Repr

/-- An `Item` node of type `CWeaponInfo`; `AttachPoints` lists, per attach point, the `Name`
text of its component items. -/
structure weapon_node where
  Name : String
  HumanNameHash : String
  WeaponFlags : String
  Group : String
  AttachPoints : List (List String)
  deriving DecidableEq, Repr

/-- An `Item` node of `peds.meta`. -/
structure ped_node where
  Name : String
  Pedtype : String
  deriving DecidableEq, Repr

/-- A parsed `pugi::xml_document`, given by the node sets that the four `select_nodes`
queries of the handlers return on it (all empty for a file that does not parse). -/
structure xml_document where
  vehicle_items : List vehicle_node
  component_items : List component_node
  weapon_items : List weapon_node
  ped_items : List ped_node
  deriving DecidableEq, Repr

/-- One call of the wrapper callback: the archive (`rpf_wrapper.get_name()`), the entry path
with the parts `std::filesystem::path` computes from it, and the entry read as XML. -/
structure archive_entry where
  rpf_name : String
  path_string : String
  path_filename : String
  path_extension : String
  path_stem : String
  doc : xml_document
  deriving DecidableEq, Repr

/-- The locals of `rebuild_cache` that the callback captures by reference. -/
structure extraction where
  mapped_peds : List Nat
  mapped_vehicles : List Nat
  mapped_weapons : List Nat
  mapped_components : List Nat
  peds : List ped_item
  vehicles : List vehicle_item
  weapons : List (Nat × weapon_item_parsed)
  weapon_components : List weapon_component
  deriving DecidableEq, Repr

/-- The locals as `rebuild_cache` declares them: all empty. -/
def extraction.start : extraction :=
  { mapped_peds := [], mapped_vehicles := [], mapped_weapons := [], mapped_components := [],
    peds := [], vehicles := [], weapons := [], weapon_components := [] }

/-! ## Pedestrian handlers -/

/-- One iteration of the loop of `parse_ped`. -/
def parse_ped_item (g : Game) (st : extraction) (item : ped_node) : extraction :=
  let name := item.Name
  let hash := g.joaat name
  if g.is_crash_ped hash then st
  else if st.mapped_peds.contains hash then st
  else
    let ped : ped_item :=
      { m_name := strncpy name g.sizeof_ped_name
        m_ped_type := strncpy item.Pedtype g.sizeof_ped_type
        m_hash := hash }
    { st with mapped_peds := st.mapped_peds ++ [hash], peds := st.peds ++ [ped] }

/-- The function `parse_ped` on the item nodes of a document. -/
def parse_ped (g : Game) (st : extraction) (doc : xml_document) : extraction :=
  doc.ped_items.foldl (parse_ped_item g) st

/-- The `.yft` branch of the callback: a ped named after the file stem, its type left zeroed. -/
def yft_ped (g : Game) (st : extraction) (stem : String) : extraction :=
  let name := stem
  let hash := g.joaat name
  if g.is_crash_ped hash then st
  else if st.mapped_peds.contains hash then st
  else
    let ped : ped_item :=
      { m_name := strncpy name g.sizeof_ped_name
        m_ped_type := List.replicate g.sizeof_ped_type NUL
        m_hash := hash }
    { st with mapped_peds := st.mapped_peds ++ [hash], peds := st.peds ++ [ped] }

/-! ## Vehicle handler -/

/-- One iteration of the loop of the `vehicles.meta` handler. -/
def vehicle_item_step (g : Game) (st : extraction) (item : vehicle_node) : extraction :=
  let name := to_upper item.modelName
  let hash := g.joaat name
  if g.is_crash_vehicle hash then st
  else if hash_exists st.mapped_vehicles hash then st
  else
    let vehicle_class := item.vehicleClass
    let veh : vehicle_item :=
      { m_name := strncpy name g.sizeof_vehicle_name
        m_display_manufacturer := strncpy item.vehicleMakeName g.sizeof_display_manufacturer
        m_display_name := strncpy item.gameName g.sizeof_display_name
        m_vehicle_class :=
          if vehicle_class.length > 3 then strncpy (vehicle_class.drop 3) g.sizeof_vehicle_class
          else List.replicate g.sizeof_vehicle_class NUL
        m_hash := hash }
    { st with mapped_vehicles := st.mapped_vehicles ++ [hash], vehicles := st.vehicles ++ [veh] }

/-! ## Weapon-component handler -/

/-- The `weapon_hash` context passed to the name resolver. -/
def component_weapon_hash (g : Game) (name : String) : Nat :=
  if starts_with name "COMPONENT_KNIFE" then g.joaat "WEAPON_KNIFE"
  else if starts_with name "COMPONENT_KNUCKLE" then g.joaat "WEAPON_KNUCKLE"
  else if starts_with name "COMPONENT_BAT" then g.joaat "WEAPON_BAT"
  else 0

/-- The description stored for a component: resolved through the game when the raw text ends in
"INVALID", and cleared when it still ends in "INVALID". -/
def component_desc (g : Game) (hash : Nat) (LocDesc : String) : String :=
  let LocDesc :=
    if ends_with LocDesc "INVALID" then
      match g.get_component_desc_string hash 0 with
      | some display_string => display_string
      | none => LocDesc
    else LocDesc
  if ends_with LocDesc "INVALID" then "" else LocDesc

/-- The tail of the component loop body, entered with the final `LocName`: the second
"INVALID" test, the description, and the `push_back`. -/
def component_finish (g : Game) (st : extraction) (name : String) (hash : Nat)
    (LocName LocDesc : String) : extraction :=
  if ends_with LocName "INVALID" then st
  else
    let component : weapon_component :=
      { m_name := name, m_hash := hash, m_display_name := LocName
        m_display_desc := component_desc g hash LocDesc }
    { st with weapon_components := st.weapon_components ++ [component] }

/-- One iteration of the loop of the weapon-component handler. -/
def component_item_step (g : Game) (st : extraction) (item : component_node) : extraction :=
  let name := item.Name
  let hash := g.joaat name
  if !starts_with name "COMPONENT" || ends_with name "MK2_UPGRADE" then st
  else if hash_exists st.mapped_components hash then st
  else
    let st := { st with mapped_components := st.mapped_components ++ [hash] }
    let LocName := item.LocName
    let LocDesc := item.LocDesc
    if ends_with LocName "RAIL" then st
    else if ends_with LocName "INVALID" then
      match g.get_component_name_string hash (component_weapon_hash g name) with
      | none => st
      | some display_string => component_finish g st name hash display_string LocDesc
    else component_finish g st name hash LocName LocDesc

/-! ## Weapon handler -/

/-- The booleans set by the flag loop: `weapon.m_throwable`, `is_gun`, `is_rechargable`. -/
structure weapon_flag_state where
  m_throwable : Bool
  is_gun : Bool
  is_rechargable : Bool
  deriving DecidableEq, Repr

/-- The loop `while ((pos = weapon_flags.find(' ')) != npos)`: the flag is `substr(0, pos)`, the
rest after `erase(0, pos + 1)`; `none` is `goto skip`.  The first argument bounds the number of
iterations; `weapon_flags.length + 1` is enough, as every iteration erases a character
(`flag_loop_fuel`). -/
def flag_loop : Nat → List Char → weapon_flag_state → Option weapon_flag_state
  | 0, _, acc => some acc
  | fuel + 1, weapon_flags, acc =>
    match find_char ' ' weapon_flags with
    | none => some acc
    | some pos =>
      let flag := String.mk (weapon_flags.take pos)
      let rest := weapon_flags.drop (pos + 1)
      if flag = "Thrown" then flag_loop fuel rest { acc with m_throwable := true }
      else if flag = "Gun" then flag_loop fuel rest { acc with is_gun := true }
      else if flag = "DisplayRechargeTimeHUD" then
        flag_loop fuel rest { acc with is_rechargable := true }
      else if flag = "Vehicle" ∨ flag = "HiddenFromWeaponWheel" ∨ flag = "NotAWeapon" then none
      else flag_loop fuel rest acc

/-- The flag loop on the text of `WeaponFlags`, from the initial values of the three booleans. -/
def parse_weapon_flags (weapon_flags : String) : Option weapon_flag_state :=
  flag_loop (weapon_flags.data.length + 1) weapon_flags.data
    { m_throwable := false, is_gun := false, is_rechargable := false }

/-- The weapon handler's loop body from the `HumanNameHash` test to `weapon.m_hash = hash`:
the record about to be stored, or `none` when the body leaves through `continue` or `skip`.
The C++ `name + 7` is undefined for a name shorter than 7 characters; here it is the empty
text. -/
def build_weapon (g : Game) (file_str rpf_name : String) (item : weapon_node) :
    Option weapon_item_parsed :=
  let name := item.Name
  let hash := g.joaat name
  let human_name_hash := item.HumanNameHash
  if human_name_hash = "WT_INVALID" ∨ human_name_hash = "WT_VEHMINE" then none
  else
    let desc := g.get_weapon_desc_string hash false
    let desc := if ends_with desc "INVALID" then "" else desc
    match parse_weapon_flags item.WeaponFlags with
    | none => none
    | some flags =>
      let category := item.Group
      if category.length = 0 ∨ category = "GROUP_DIGISCANNER" then none
      else
        let m_weapon_type := if category.length > 6 then category.drop 6 else ""
        let rewarded := flags.is_gun || m_weapon_type = "MELEE" || m_weapon_type = "UNARMED"
        some
          { m_name := name
            m_display_name := human_name_hash
            m_display_desc := desc
            m_weapon_type := m_weapon_type
            m_throwable := flags.m_throwable
            m_reward_hash := if rewarded then some (g.joaat ("REWARD_" ++ name)) else none
            m_reward_ammo_hash :=
              if rewarded && (flags.is_gun && !flags.is_rechargable) then
                some (g.joaat ("REWARD_" ++ "AMMO_" ++ name.drop 7))
              else none
            m_attachments := item.AttachPoints.flatten
            m_hash := hash
            rpf_file_type := determine_file_type file_str rpf_name }

/-- One iteration of the loop of the weapon handler. -/
def weapon_item_step (g : Game) (file_str rpf_name : String) (st : extraction)
    (item : weapon_node) : extraction :=
  let hash := g.joaat item.Name
  if hash = g.joaat "WEAPON_STRICKLER" then st
  else if hash = g.joaat "WEAPON_BIRD_CRAP" then st
  else
    let st :=
      if !hash_exists st.mapped_weapons hash then
        { st with mapped_weapons := st.mapped_weapons ++ [hash] }
      else st
    match build_weapon g file_str rpf_name item with
    | none => st
    | some weapon => { st with weapons := store_weapon st.weapons hash weapon }

/-! ## The wrapper callback and the archive walk -/

/-- The callback registered with `yim_fipackfile::add_wrapper_call_back`: dispatch on the
entry's path and archive name. -/
def on_entry (g : Game) (st : extraction) (e : archive_entry) : extraction :=
  if e.path_filename = "vehicles.meta" then
    e.doc.vehicle_items.foldl (vehicle_item_step g) st
  else if str_contains e.path_string "weaponcomponents" && e.path_extension = ".meta" then
    e.doc.component_items.foldl (component_item_step g) st
  else if str_contains e.path_string "weapon" && !str_contains e.path_string "vehicle"
      && e.path_extension = ".meta" then
    e.doc.weapon_items.foldl (weapon_item_step g e.path_string e.rpf_name) st
  else if e.path_filename = "peds.meta" then
    parse_ped g st e.doc
  else if (str_contains e.rpf_name "componentpeds" || str_contains e.rpf_name "streamedpeds"
      || str_contains e.rpf_name "mppatches" || str_contains e.rpf_name "cutspeds")
      && e.path_extension = ".yft" then
    yft_ped g st e.path_stem
  else st

/-- The walk `yim_fipackfile::for_each_fipackfile()`: the callback on every entry in turn,
starting from the empty locals. -/
def extract (g : Game) (entries : List archive_entry) : extraction :=
  entries.foldl (on_entry g) extraction.start

/-! ## The data service -/

/-- The enumeration `eGtaDataUpdateState`. -/
inductive eGtaDataUpdateState where
  | IDLE
  | NEEDS_UPDATE
  | WAITING_FOR_SINGLE_PLAYER
  | UPDATING
  deriving DecidableEq, Repr

/-- Modelled from the spec: the versioned binary cache (class `cache_file`, not among the
sources): the stamp of the loaded header, if any, and the payload, held as the list of the
complete fixed-size records it contains. -/
structure cache_file (α : Type) where
  m_header_version : Option Nat
  m_data : List α
  deriving DecidableEq, Repr

/-- Modelled from the spec: a cache object before `load()`. -/
def cache_file.fresh {α : Type} : cache_file α := { m_header_version := none, m_data := [] }

/-- Modelled from the spec: `load()` reads the file into memory if present, and is a no-op if
absent. -/
def cache_file.load {α : Type} (c : cache_file α) (file : Option (Nat × List α)) :
    cache_file α :=
  match file with
  | none => c
  | some (version, data) => { m_header_version := some version, m_data := data }

/-- Modelled from the spec: `up_to_date(stamp)` is true iff a loaded header's stamp equals
`stamp`. -/
def cache_file.up_to_date {α : Type} (c : cache_file α) (stamp : Nat) : Bool :=
  c.m_header_version = some stamp

/-- Modelled from the spec: `free()` releases the in-memory payload. -/
def cache_file.free {α : Type} (c : cache_file α) : cache_file α := { c with m_data := [] }

/-- The version block of the weapons cache; the stamp is `none` until one is stored. -/
structure weapons_version_info where
  m_game_build : String
  m_online_version : String
  m_file_version : Option Nat
  deriving DecidableEq, Repr

/-- The structure `weapons_cache`: the two maps of `weapons.json` and the version block. -/
structure weapons_cache where
  version_info : weapons_version_info
  weapon_map : List (String × weapon_item)
  weapon_components : List (String × weapon_component)
  deriving DecidableEq, Repr

/-- A default-constructed `weapons_cache`. -/
def weapons_cache.fresh : weapons_cache :=
  { version_info := { m_game_build := "", m_online_version := "", m_file_version := none }
    weapon_map := [], weapon_components := [] }

/-- Modelled from the spec: the weapons cache is up to date iff its stored stamp equals the
stamp of the running build. -/
def weapons_cache.up_to_date (c : weapons_cache) (file_version : Nat) : Bool :=
  c.version_info.m_file_version = some file_version

/-- The call `m.insert({key, value})` on a map: no effect when the key is present. -/
def map_insert {α : Type} (m : List (String × α)) (key : String) (value : α) :
    List (String × α) :=
  if m.any (fun kv => kv.1 = key) then m else m ++ [(key, value)]

/-- The members of `gta_data_service`. -/
structure gta_data_service where
  m_update_state : eGtaDataUpdateState
  m_peds_cache : cache_file ped_item
  m_vehicles_cache : cache_file vehicle_item
  m_weapons_cache : weapons_cache
  m_peds : List (String × ped_item)
  m_vehicles : List (String × vehicle_item)
  m_ped_types : List String
  m_vehicle_classes : List String
  m_weapon_types : List String
  deriving DecidableEq, Repr

/-- The constructor `gta_data_service::gta_data_service()`: state `IDLE`, everything empty. -/
def gta_data_service.create : gta_data_service :=
  { m_update_state := .IDLE
    m_peds_cache := cache_file.fresh
    m_vehicles_cache := cache_file.fresh
    m_weapons_cache := weapons_cache.fresh
    m_peds := [], m_vehicles := []
    m_ped_types := [], m_vehicle_classes := [], m_weapon_types := [] }

/-- The function `add_if_not_exists`: the returned flag and the vector afterwards. -/
def add_if_not_exists (vec : List String) (str : String) : Bool × List String :=
  if vec.contains str then (true, vec) else (false, vec ++ [str])

/-- The call `std::sort(vec.begin(), vec.end())` on strings. -/
def sort_strings (vec : List String) : List String := vec.insertionSort (· ≤ ·)

/-- A returned `const T&`: the static empty object of the service, or a catalogue element. -/
inductive item_ref (α : Type) where
  | empty : item_ref α
  | stored : α → item_ref α
  deriving DecidableEq, Repr

/-- The scan `for (const auto& [name, item] : m) if (item.m_hash == hash) return item;`
followed by the return of the empty object. -/
def scan_by_hash {α : Type} (m_hash : α → Nat) (m : List (String × α)) (hash : Nat) :
    item_ref α :=
  match m with
  | [] => .empty
  | (_, item) :: rest => if m_hash item = hash then .stored item else scan_by_hash m_hash rest hash

/-- The getter `ped_by_hash`. -/
def gta_data_service.ped_by_hash (s : gta_data_service) (hash : Nat) : item_ref ped_item :=
  scan_by_hash ped_item.m_hash s.m_peds hash

/-- The getter `vehicle_by_hash`. -/
def gta_data_service.vehicle_by_hash (s : gta_data_service) (hash : Nat) :
    item_ref vehicle_item :=
  scan_by_hash vehicle_item.m_hash s.m_vehicles hash

/-- The getter `weapon_by_hash`. -/
def gta_data_service.weapon_by_hash (s : gta_data_service) (hash : Nat) : item_ref weapon_item :=
  scan_by_hash weapon_item.m_hash s.m_weapons_cache.weapon_map hash

/-- The getter `weapon_component_by_hash`. -/
def gta_data_service.weapon_component_by_hash (s : gta_data_service) (hash : Nat) :
    item_ref weapon_component :=
  scan_by_hash weapon_component.m_hash s.m_weapons_cache.weapon_components hash

/-- The scan of `weapon_component_by_name` over the map entries. -/
def scan_by_name (m : List (String × weapon_component)) (name : String) :
    item_ref weapon_component :=
  match m with
  | [] => .empty
  | (name_key, component) :: rest =>
    if name_key = name then .stored component else scan_by_name rest name

/-- The getter `weapon_component_by_name`. -/
def gta_data_service.weapon_component_by_name (s : gta_data_service) (name : String) :
    item_ref weapon_component :=
  scan_by_name s.m_weapons_cache.weapon_components name

/-- The key under which `load_peds` inserts the record of iteration `slot.1`:
`std::string(ped.m_name)`. -/
def ped_key (mem : memory_after) (slot : Nat × ped_item) : String :=
  read_c_string slot.2.m_name (mem.ped_name slot.1 slot.2)

/-- The key under which `load_vehicles` inserts the record of iteration `slot.1`:
`std::string(vehicle.m_name)`. -/
def vehicle_key (mem : memory_after) (slot : Nat × vehicle_item) : String :=
  read_c_string slot.2.m_name (mem.vehicle_name slot.1 slot.2)

/-- The function `load_peds`; the loop runs over the records with their index `i`. -/
def gta_data_service.load_peds (s : gta_data_service) (mem : memory_after) :
    gta_data_service :=
  let cached_peds := s.m_peds_cache.m_data
  let s := { s with m_ped_types := [], m_peds := [] }
  let s := cached_peds.enum.foldl
    (fun (s : gta_data_service) (slot : Nat × ped_item) =>
      { s with
        m_ped_types :=
          (add_if_not_exists s.m_ped_types
            (read_c_string slot.2.m_ped_type (mem.ped_type slot.1 slot.2))).2
        m_peds := map_insert s.m_peds (ped_key mem slot) slot.2 })
    s
  { s with m_ped_types := sort_strings s.m_ped_types, m_peds_cache := s.m_peds_cache.free }

/-- The function `load_vehicles`; the loop runs over the records with their index `i`. -/
def gta_data_service.load_vehicles (s : gta_data_service) (mem : memory_after) :
    gta_data_service :=
  let cached_vehicles := s.m_vehicles_cache.m_data
  let s := { s with m_vehicle_classes := [], m_vehicles := [] }
  let s := cached_vehicles.enum.foldl
    (fun (s : gta_data_service) (slot : Nat × vehicle_item) =>
      { s with
        m_vehicle_classes :=
          (add_if_not_exists s.m_vehicle_classes
            (read_c_string slot.2.m_vehicle_class (mem.vehicle_class slot.1 slot.2))).2
        m_vehicles := map_insert s.m_vehicles (vehicle_key mem slot) slot.2 })
    s
  { s with
    m_vehicle_classes := sort_strings s.m_vehicle_classes
    m_vehicles_cache := s.m_vehicles_cache.free }

/-- The function `load_weapons`: two log lines and a sort of `m_weapon_types`. -/
def gta_data_service.load_weapons (s : gta_data_service) : gta_data_service :=
  { s with m_weapon_types := sort_strings s.m_weapon_types }

/-- The function `load_data`. -/
def gta_data_service.load_data (s : gta_data_service) (mem : memory_after) :
    gta_data_service :=
  ((s.load_peds mem).load_vehicles mem).load_weapons

/-- The files of the `cache/` directory: for each binary cache its header stamp and records
when the file is present, and the `weapons_cache` value of `weapons.json` when that file is
present and parses. -/
structure cache_dir where
  peds_bin : Option (Nat × List ped_item)
  vehicles_bin : Option (Nat × List vehicle_item)
  weapons_json : Option weapons_cache
  deriving DecidableEq, Repr

/-- The function `is_cache_up_to_date`, for the build stamp `file_version` of the running
game: the result and the service with the caches read in. -/
def gta_data_service.is_cache_up_to_date (s : gta_data_service) (dir : cache_dir)
    (file_version : Nat) : Bool × gta_data_service :=
  let s := { s with
    m_peds_cache := s.m_peds_cache.load dir.peds_bin
    m_vehicles_cache := s.m_vehicles_cache.load dir.vehicles_bin }
  let s :=
    match dir.weapons_json with
    | some parsed => { s with m_weapons_cache := parsed }
    | none => s
  (s.m_peds_cache.up_to_date file_version && s.m_vehicles_cache.up_to_date file_version
      && s.m_weapons_cache.up_to_date file_version, s)

/-- The function `init`. -/
def gta_data_service.init (s : gta_data_service) (mem : memory_after) (dir : cache_dir)
    (file_version : Nat) : gta_data_service :=
  let s := { s with m_peds_cache := cache_file.fresh, m_vehicles_cache := cache_file.fresh }
  let r := s.is_cache_up_to_date dir file_version
  if !r.1 then { r.2 with m_update_state := .NEEDS_UPDATE } else r.2.load_data mem

/-- The job `rebuild_cache` pushes to the thread pool once extraction and enrichment are done:
fill the two binary caches and the weapons cache from the four collections, then `load_data`.
The writes to disk leave the service unchanged and are not represented; the `completed` latch
the job sets last is a static local of `rebuild_cache`, not a member of the service. -/
def gta_data_service.save_and_load (s : gta_data_service) (mem : memory_after)
    (file_version : Nat) (game_build online_version : String) (peds : List ped_item) (vehicles : List vehicle_item)
    (weapons : List (Nat × weapon_item_parsed)) (weapon_components : List weapon_component) :
    gta_data_service :=
  let s := { s with
    m_peds_cache := { m_header_version := some file_version, m_data := peds }
    m_vehicles_cache := { m_header_version := some file_version, m_data := vehicles } }
  let s := { s with
    m_weapons_cache := { s.m_weapons_cache with
      version_info :=
        { m_game_build := game_build, m_online_version := online_version
          m_file_version := some file_version }
      weapon_map := [] }
    m_weapon_types := [] }
  let s := weapons.foldl
    (fun (s : gta_data_service) weapon =>
      { s with
        m_weapon_types := (add_if_not_exists s.m_weapon_types weapon.2.m_weapon_type).2
        m_weapons_cache := { s.m_weapons_cache with
          weapon_map :=
            map_insert s.m_weapons_cache.weapon_map weapon.2.m_name weapon.2.toweapon_item } })
    s
  let s := { s with m_weapons_cache := { s.m_weapons_cache with weapon_components := [] } }
  let s := weapon_components.foldl
    (fun (s : gta_data_service) weapon_component =>
      { s with
        m_weapons_cache := { s.m_weapons_cache with
          weapon_components :=
            map_insert s.m_weapons_cache.weapon_components weapon_component.m_name
              weapon_component } })
    s
  s.load_data mem

/-! ## A sample game -/

/-- One round of the one-at-a-time hash on a lower-cased character. -/
def sample_joaat_step (h : Nat) (c : Char) : Nat :=
  let h1 := (h + c.toLower.toNat) % 2 ^ 32
  let h2 := (h1 + h1 <<< 10) % 2 ^ 32
  h2 ^^^ (h2 >>> 6)

/-- A 32-bit one-at-a-time hash, used to instantiate `Game.joaat` on concrete inputs. -/
def sample_joaat (s : String) : Nat :=
  let h := s.data.foldl sample_joaat_step 0
  let h1 := (h + h <<< 3) % 2 ^ 32
  let h2 := h1 ^^^ (h1 >>> 11)
  (h2 + h2 <<< 15) % 2 ^ 32

/-- A concrete `Game` for evaluating the handlers: no denylisted hash, 32-character arrays,
a name resolver that answers "WCT_RAIL", no description resolver. -/
def sample_game : Game :=
  { joaat := sample_joaat
    is_crash_ped := fun _ => false
    is_crash_vehicle := fun _ => false
    get_component_name_string := fun _ _ => some "WCT_RAIL"
    get_component_desc_string := fun _ _ => none
    get_weapon_desc_string := fun _ _ => "WTD_INVALID"
    sizeof_ped_name := 32
    sizeof_ped_type := 32
    sizeof_vehicle_name := 32
    sizeof_display_manufacturer := 32
    sizeof_display_name := 32
    sizeof_vehicle_class := 32 }

/-- The four bytes of a 32-bit hash, lowest first. -/
def hash_bytes (hash : Nat) : List Char :=
  [Char.ofNat (hash % 256), Char.ofNat (hash / 256 % 256), Char.ofNat (hash / 65536 % 256),
    Char.ofNat (hash / 16777216 % 256)]

/-- A concrete `memory_after`: the records laid out in the field order of the data model
(name, type, hash for a ped; name, manufacturer, display name, class, hash for a vehicle),
with zero bytes behind each record. -/
def sample_memory : memory_after :=
  { ped_name := fun _ ped => ped.m_ped_type ++ hash_bytes ped.m_hash ++ [NUL]
    ped_type := fun _ ped => hash_bytes ped.m_hash ++ [NUL]
    vehicle_name := fun _ veh =>
      veh.m_display_manufacturer ++ veh.m_display_name ++ veh.m_vehicle_class
        ++ hash_bytes veh.m_hash ++ [NUL]
    vehicle_class := fun _ veh => hash_bytes veh.m_hash ++ [NUL] }

/-- A weapon record with the given name, hash, display name and source tag. -/
def sample_weapon (name : String) (hash : Nat) (display : String) (tag : RPFDatafileSource) :
    weapon_item_parsed :=
  { m_name := name, m_display_name := display, m_display_desc := "", m_weapon_type := "PISTOL"
    m_throwable := false, m_reward_hash := none, m_reward_ammo_hash := none
    m_attachments := [], m_hash := hash, rpf_file_type := tag }

/-! ## Invariants of the extraction -/

/-- Hash uniqueness in the four outputs, with what the loop needs to keep it: every listed ped,
vehicle and component has its hash in the matching seen-hash list, and every weapon is stored
under its own hash. -/
def extraction.unique_hashes (st : extraction) : Prop :=
  ((st.peds.map ped_item.m_hash).Nodup ∧ ∀ p ∈ st.peds, p.m_hash ∈ st.mapped_peds)
    ∧ ((st.vehicles.map vehicle_item.m_hash).Nodup
      ∧ ∀ v ∈ st.vehicles, v.m_hash ∈ st.mapped_vehicles)
    ∧ ((st.weapon_components.map weapon_component.m_hash).Nodup
      ∧ ∀ c ∈ st.weapon_components, c.m_hash ∈ st.mapped_components)
    ∧ ((st.weapons.map Prod.fst).Nodup ∧ ∀ kv ∈ st.weapons, kv.2.m_hash = kv.1)

/-- No denylisted hash among the extracted peds and vehicles. -/
def extraction.no_crash_models (g : Game) (st : extraction) : Prop :=
  (∀ p ∈ st.peds, g.is_crash_ped p.m_hash = false)
    ∧ ∀ v ∈ st.vehicles, g.is_crash_vehicle v.m_hash = false

/-- The getter `ped_types`. -/
def gta_data_service.ped_types (s : gta_data_service) : List String := s.m_ped_types

/-- The getter `vehicle_classes`. -/
def gta_data_service.vehicle_classes (s : gta_data_service) : List String := s.m_vehicle_classes

/-- The getter `weapon_types`. -/
def gta_data_service.weapon_types (s : gta_data_service) : List String := s.m_weapon_types

/-- A list of strings without duplicates, in ascending lexicographic order. -/
def sorted_nodup (l : List String) : Prop := l.Nodup ∧ l.Sorted (· ≤ ·)

/-- A cache directory whose three files carry stamp 1: no ped, no vehicle, and a weapons file
with one weapon of type "PISTOL". -/
def sample_cache_dir : cache_dir :=
  { peds_bin := some (1, [])
    vehicles_bin := some (1, [])
    weapons_json := some
      { version_info := { m_game_build := "3095", m_online_version := "1.68"
                          m_file_version := some 1 }
        weapon_map := [("WEAPON_PISTOL",
          (sample_weapon "WEAPON_PISTOL" (sample_joaat "WEAPON_PISTOL") "WT_PIST"
            .BASE).toweapon_item)]
        weapon_components := [] } }

/-- The display name of a component as the weapon-component claim words it: the raw `LocName`,
or the resolver's string when the raw `LocName` ends in "INVALID" (`none` when the resolver
then returns `nullptr`). -/
def resolved_display_name (g : Game) (item : component_node) : Option String :=
  if ends_with item.LocName "INVALID" then
    g.get_component_name_string (g.joaat item.Name) (component_weapon_hash g item.Name)
  else some item.LocName

/-- A component whose raw name is unresolved. -/
def sample_unresolved_component : component_node :=
  { Name := "COMPONENT_AT_RAILCOVER_01", LocName := "WCT_INVALID", LocDesc := "WCD_INVALID" }

/-- A component whose raw name ends in "RAIL". -/
def sample_rail_component : component_node :=
  { Name := "COMPONENT_AT_RAILCOVER_01", LocName := "WCT_RAIL", LocDesc := "WCD_INVALID" }

/-- A weapon item with the given flags, of name WEAPON_PISTOL and group GROUP_PISTOL. -/
def sample_pistol (flags : String) : weapon_node :=
  { Name := "WEAPON_PISTOL", HumanNameHash := "WT_PIST", WeaponFlags := flags
    Group := "GROUP_PISTOL", AttachPoints := [["COMPONENT_PISTOL_CLIP_01"]] }

/-- The vehicle item of the specification's example. -/
def sample_adder : vehicle_node :=
  { modelName := "adder", vehicleMakeName := "TRUFFADE", gameName := "ADDER"
    vehicleClass := "VEH_CLASS_SPORT" }

/-- A ped item whose name has 38 characters. -/
def sample_long_ped_alpha : ped_node :=
  { Name := "CS_EXTREMELY_LONG_PED_MODEL_NAME_ALPHA", Pedtype := "CIVMALE" }

/-- A second ped item; its name shares its first 32 characters with the first. -/
def sample_long_ped_bravo : ped_node :=
  { Name := "CS_EXTREMELY_LONG_PED_MODEL_NAME_BRAVO", Pedtype := "CIVMALE" }

/-- A `peds.meta` entry holding the two long-named peds. -/
def sample_peds_meta : archive_entry :=
  { rpf_name := "common.rpf", path_string := "common/data/peds.meta"
    path_filename := "peds.meta", path_extension := ".meta", path_stem := "peds"
    doc := { vehicle_items := [], component_items := [], weapon_items := []
             ped_items := [sample_long_ped_alpha, sample_long_ped_bravo] } }

/-- A service whose ped cache holds the given records and whose vehicle cache holds the given
vehicles, as after `is_cache_up_to_date` or the `set_data` calls of the write job. -/
def sample_loaded_service (peds : List ped_item) (vehicles : List vehicle_item) :
    gta_data_service :=
  { gta_data_service.create with
    m_peds_cache := { m_header_version := some 1, m_data := peds }
    m_vehicles_cache := { m_header_version := some 1, m_data := vehicles } }

/-! ## The update state machine -/

/-- The getter `state`. -/
def gta_data_service.state (s : gta_data_service) : eGtaDataUpdateState := s.m_update_state

/-- The setter `set_state`. -/
def gta_data_service.set_state (s : gta_data_service) (state : eGtaDataUpdateState) :
    gta_data_service :=
  { s with m_update_state := state }

/-- The service object together with `completed`, the static local of `rebuild_cache` that
outlives every call. -/
structure process where
  service : gta_data_service
  completed : Bool
  deriving DecidableEq, Repr

/-- A process at start-up: a constructed service, and `static bool completed = false`. -/
def process.start : process := { service := gta_data_service.create, completed := false }

/-- The function `rebuild_cache` from its entry to its return, with the job it pushes to the
thread pool (`none` when it pushes none).  `entries` is what the archive walk feeds to the
callback; `enrich` stands for the fiber job that rewrites the four collections through the
running game.  The waits of the function (for the MP_Weapons script, for `translate_label`)
are taken to end; they touch neither `m_update_state` nor `completed`. -/
def rebuild_cache (g : Game) (entries : List archive_entry) (enrich : extraction → extraction)
    (p : process) : process × Option extraction :=
  if p.completed = true then (p, none)
  else
    let st := if p.service.state = .UPDATING then extract g entries else extraction.start
    let st := enrich st
    ({ p with service := { p.service with m_update_state := .IDLE } }, some st)

/-- The job pushed by `rebuild_cache`, run by the thread pool: `save_and_load` on the moved
collections, then `completed = true`. -/
def write_job (mem : memory_after) (file_version : Nat) (game_build online_version : String)
    (st : extraction) (p : process) : process :=
  { service := p.service.save_and_load mem file_version game_build online_version st.peds
      st.vehicles st.weapons st.weapon_components
    completed := true }

/-- The body of `update_now` itself: the state is set, the job is queued. -/
def update_now (p : process) : process :=
  { p with service := { p.service with m_update_state := .WAITING_FOR_SINGLE_PLAYER } }

/-- The first statement of the job queued by `update_now`. -/
def update_job_start (p : process) : process :=
  { p with service := { p.service with m_update_state := .UPDATING } }

/-- The job queued by `update_now`: `m_update_state = UPDATING; rebuild_cache();`. -/
def update_job (g : Game) (entries : List archive_entry) (enrich : extraction → extraction)
    (p : process) : process × Option extraction :=
  rebuild_cache g entries enrich (update_job_start p)

/-- A process in which one rebuild has run to its end: `init` on an empty cache directory,
`update_now`, its job (over an archive walk without entries), and the write job that job
pushed. -/
def sample_rebuilt_process : process :=
  let p := { process.start with
    service := process.start.service.init sample_memory
      { peds_bin := none, vehicles_bin := none, weapons_json := none } 1 }
  let r := update_job sample_game [] id (update_now p)
  match r.2 with
  | some st => write_job sample_memory 1 "3095" "1.68" st r.1
  | none => r.1

/-- The record `parse_ped` builds under `sample_game` for a ped of the given name and type
"CIVMALE". -/
def sample_ped_record (name : String) : ped_item :=
  { m_name := strncpy name 32, m_ped_type := strncpy "CIVMALE" 32, m_hash := sample_joaat name }

/-- The record the vehicle handler builds under `sample_game` for the given upper-case name
and class text. -/
def sample_vehicle_record (name vehicle_class : String) : vehicle_item :=
  { m_name := strncpy name 32, m_display_manufacturer := strncpy "TRUFFADE" 32
    m_display_name := strncpy name 32, m_vehicle_class := strncpy vehicle_class 32
    m_hash := sample_joaat name }

/-! ## Theorems -/

/-! ### The weapon map -/

theorem umap_find_assign_self (weapons : List (Nat × weapon_item_parsed)) (hash : Nat)
    (weapon : weapon_item_parsed) :
    umap_find (umap_assign weapons hash weapon) hash = some weapon := by
  induction weapons with
  | nil => simp [umap_assign, umap_find]
  | cons kv rest ih =>
    obtain ⟨k, v⟩ := kv
    by_cases hk : k = hash
    · simp [umap_assign, umap_find, hk]
    · simp [umap_assign, umap_find, hk, ih]

theorem store_weapon_of_le (weapons : List (Nat × weapon_item_parsed)) (hash : Nat)
    (weapon : weapon_item_parsed)
    (h : ∀ stored, umap_find weapons hash = some stored →
      stored.rpf_file_type.rank ≤ weapon.rpf_file_type.rank) :
    store_weapon weapons hash weapon = umap_assign weapons hash weapon := by
  unfold store_weapon
  cases hf : umap_find weapons hash with
  | none => rfl
  | some stored =>
    have := h stored hf
    simp only
    rw [if_neg (by omega)]

theorem store_weapon_of_gt (weapons : List (Nat × weapon_item_parsed)) (hash : Nat)
    (weapon stored : weapon_item_parsed) (hf : umap_find weapons hash = some stored)
    (h : stored.rpf_file_type.rank > weapon.rpf_file_type.rank) :
    store_weapon weapons hash weapon = weapons := by
  unfold store_weapon
  rw [hf]
  simp only
  rw [if_pos h]

/-- Claim C1.  Two weapon definitions of one hash, one tagged BASE and one tagged DLC, are put
through the collision rule in either order, starting from a map that holds nothing of a higher
tag than DLC under that hash (the empty map included): the DLC definition is the one stored
under the hash afterwards. -/
theorem weapon_collision_base_dlc (weapons : List (Nat × weapon_item_parsed))
    (base dlc : weapon_item_parsed) (hsame : base.m_hash = dlc.m_hash)
    (hbase : base.rpf_file_type = .BASE) (hdlc : dlc.rpf_file_type = .DLC)
    (hprior : ∀ stored, umap_find weapons dlc.m_hash = some stored →
      stored.rpf_file_type.rank ≤ RPFDatafileSource.DLC.rank) :
    umap_find (store_weapon (store_weapon weapons base.m_hash base) dlc.m_hash dlc) dlc.m_hash
        = some dlc
      ∧ umap_find (store_weapon (store_weapon weapons dlc.m_hash dlc) base.m_hash base)
        dlc.m_hash = some dlc := by
  rw [hsame]
  constructor
  · rw [store_weapon_of_le _ _ dlc, umap_find_assign_self]
    intro stored hs
    rw [hdlc]
    by_cases hgt : ∃ old, umap_find weapons dlc.m_hash = some old
        ∧ old.rpf_file_type.rank > base.rpf_file_type.rank
    · obtain ⟨old, hold, hrank⟩ := hgt
      rw [store_weapon_of_gt _ _ _ old hold hrank] at hs
      exact hprior stored hs
    · rw [store_weapon_of_le, umap_find_assign_self] at hs
      · cases hs
        rw [hbase]
        decide
      · intro old hold
        by_contra hlt
        exact hgt ⟨old, hold, by omega⟩
  · have hfirst : store_weapon weapons dlc.m_hash dlc = umap_assign weapons dlc.m_hash dlc := by
      apply store_weapon_of_le
      intro stored hs
      rw [hdlc]
      exact hprior stored hs
    rw [hfirst, store_weapon_of_gt _ _ base dlc (umap_find_assign_self _ _ _),
      umap_find_assign_self]
    rw [hbase, hdlc]
    decide

/-- Witness for C1: a BASE and a DLC definition of hash 7 on the empty map. -/
theorem weapon_collision_base_dlc_witness :
    umap_find
        (store_weapon
          (store_weapon [] 7 (sample_weapon "WEAPON_X" 7 "WT_BASE" .BASE)) 7
          (sample_weapon "WEAPON_X" 7 "WT_DLC" .DLC)) 7
        = some (sample_weapon "WEAPON_X" 7 "WT_DLC" .DLC)
      ∧ umap_find
        (store_weapon
          (store_weapon [] 7 (sample_weapon "WEAPON_X" 7 "WT_DLC" .DLC)) 7
          (sample_weapon "WEAPON_X" 7 "WT_BASE" .BASE)) 7
        = some (sample_weapon "WEAPON_X" 7 "WT_DLC" .DLC) :=
  weapon_collision_base_dlc [] (sample_weapon "WEAPON_X" 7 "WT_BASE" .BASE)
    (sample_weapon "WEAPON_X" 7 "WT_DLC" .DLC) rfl rfl rfl
    (fun stored h => by simp [umap_find] at h)

/-- Counterexample for C2: hash 7 is stored with tag BASE and a second definition of hash 7,
also tagged BASE, arrives; afterwards the second definition is stored, not the first. -/
theorem weapon_tie_replaces_first :
    (sample_weapon "WEAPON_X" 7 "WT_FIRST" .BASE).rpf_file_type
        = (sample_weapon "WEAPON_X" 7 "WT_SECOND" .BASE).rpf_file_type
      ∧ umap_find [(7, sample_weapon "WEAPON_X" 7 "WT_FIRST" .BASE)] 7
        = some (sample_weapon "WEAPON_X" 7 "WT_FIRST" .BASE)
      ∧ umap_find
          (store_weapon [(7, sample_weapon "WEAPON_X" 7 "WT_FIRST" .BASE)] 7
            (sample_weapon "WEAPON_X" 7 "WT_SECOND" .BASE)) 7
        = some (sample_weapon "WEAPON_X" 7 "WT_SECOND" .BASE)
      ∧ umap_find
          (store_weapon [(7, sample_weapon "WEAPON_X" 7 "WT_FIRST" .BASE)] 7
            (sample_weapon "WEAPON_X" 7 "WT_SECOND" .BASE)) 7
        ≠ some (sample_weapon "WEAPON_X" 7 "WT_FIRST" .BASE) := by
  decide

/-- Claim C2, amended.  When the hash of a weapon definition is already stored with an equal
source tag, the collision rule replaces the stored definition by the later one. -/
theorem weapon_collision_tie (weapons : List (Nat × weapon_item_parsed))
    (weapon stored : weapon_item_parsed)
    (hstored : umap_find weapons weapon.m_hash = some stored)
    (htie : stored.rpf_file_type = weapon.rpf_file_type) :
    umap_find (store_weapon weapons weapon.m_hash weapon) weapon.m_hash = some weapon := by
  rw [store_weapon_of_le, umap_find_assign_self]
  intro old hold
  rw [hstored] at hold
  cases hold
  rw [htie]

/-- Witness for C2 amended: the tie of two BASE definitions of hash 7. -/
theorem weapon_collision_tie_witness :
    umap_find [(7, sample_weapon "WEAPON_X" 7 "WT_FIRST" .BASE)]
        (sample_weapon "WEAPON_X" 7 "WT_SECOND" .BASE).m_hash
        = some (sample_weapon "WEAPON_X" 7 "WT_FIRST" .BASE)
      ∧ umap_find
          (store_weapon [(7, sample_weapon "WEAPON_X" 7 "WT_FIRST" .BASE)]
            (sample_weapon "WEAPON_X" 7 "WT_SECOND" .BASE).m_hash
            (sample_weapon "WEAPON_X" 7 "WT_SECOND" .BASE))
          (sample_weapon "WEAPON_X" 7 "WT_SECOND" .BASE).m_hash
        = some (sample_weapon "WEAPON_X" 7 "WT_SECOND" .BASE) :=
  ⟨by decide,
    weapon_collision_tie [(7, sample_weapon "WEAPON_X" 7 "WT_FIRST" .BASE)]
      (sample_weapon "WEAPON_X" 7 "WT_SECOND" .BASE)
      (sample_weapon "WEAPON_X" 7 "WT_FIRST" .BASE) (by decide) rfl⟩

/-! ### Extraction invariants -/

theorem foldl_preserves {σ α : Type} (P : σ → Prop) (f : σ → α → σ)
    (hstep : ∀ s x, P s → P (f s x)) (l : List α) (s : σ) (hs : P s) : P (l.foldl f s) := by
  induction l generalizing s with
  | nil => exact hs
  | cons x xs ih => exact ih _ (hstep s x hs)

theorem nodup_map_append_singleton {α : Type} (f : α → Nat) (l : List α) (a : α)
    (hl : (l.map f).Nodup) (ha : ∀ x ∈ l, f x ≠ f a) : ((l ++ [a]).map f).Nodup := by
  rw [List.map_append, List.nodup_append]
  refine ⟨hl, by simp, ?_⟩
  intro x hx hy
  simp only [List.map_cons, List.map_nil, List.mem_singleton] at hy
  obtain ⟨z, hz, hzx⟩ := List.mem_map.1 hx
  exact ha z hz (hzx.trans hy)

theorem umap_assign_keys (weapons : List (Nat × weapon_item_parsed)) (hash : Nat)
    (weapon : weapon_item_parsed) (k : Nat) :
    k ∈ (umap_assign weapons hash weapon).map Prod.fst
      ↔ k = hash ∨ k ∈ weapons.map Prod.fst := by
  induction weapons with
  | nil => simp [umap_assign]
  | cons kv rest ih =>
    obtain ⟨k0, v0⟩ := kv
    by_cases hk : k0 = hash
    · subst hk
      simp [umap_assign]
    · simp only [umap_assign, hk, if_false, List.map_cons, List.mem_cons, ih]
      tauto

theorem umap_assign_nodup (weapons : List (Nat × weapon_item_parsed)) (hash : Nat)
    (weapon : weapon_item_parsed) (h : (weapons.map Prod.fst).Nodup) :
    ((umap_assign weapons hash weapon).map Prod.fst).Nodup := by
  induction weapons with
  | nil => simp [umap_assign]
  | cons kv rest ih =>
    obtain ⟨k0, v0⟩ := kv
    rw [List.map_cons, List.nodup_cons] at h
    by_cases hk : k0 = hash
    · simp only [umap_assign, hk, if_true, List.map_cons, List.nodup_cons]
      exact ⟨hk ▸ h.1, h.2⟩
    · simp only [umap_assign, hk, if_false, List.map_cons, List.nodup_cons]
      refine ⟨?_, ih h.2⟩
      rw [umap_assign_keys]
      rintro (h1 | h1)
      · exact hk h1
      · exact h.1 h1

theorem umap_assign_values (weapons : List (Nat × weapon_item_parsed)) (hash : Nat)
    (weapon : weapon_item_parsed) (P : Nat × weapon_item_parsed → Prop)
    (h : ∀ kv ∈ weapons, P kv) (hw : P (hash, weapon)) :
    ∀ kv ∈ umap_assign weapons hash weapon, P kv := by
  induction weapons with
  | nil => simpa [umap_assign] using hw
  | cons kv rest ih =>
    obtain ⟨k0, v0⟩ := kv
    have hrest : ∀ kv ∈ rest, P kv := fun kv hkv => h kv (List.mem_cons_of_mem _ hkv)
    by_cases hk : k0 = hash
    · simp only [umap_assign, hk, if_true]
      intro kv hkv
      rcases List.mem_cons.1 hkv with h1 | h1
      · rw [h1]; exact hw
      · exact hrest kv h1
    · simp only [umap_assign, hk, if_false]
      intro kv hkv
      rcases List.mem_cons.1 hkv with h1 | h1
      · rw [h1]; exact h _ (List.mem_cons_self _ _)
      · exact ih hrest kv h1

theorem store_weapon_cases (weapons : List (Nat × weapon_item_parsed)) (hash : Nat)
    (weapon : weapon_item_parsed) :
    store_weapon weapons hash weapon = weapons
      ∨ store_weapon weapons hash weapon = umap_assign weapons hash weapon := by
  unfold store_weapon
  cases umap_find weapons hash with
  | none => exact Or.inr rfl
  | some stored =>
    simp only
    split_ifs
    · exact Or.inl rfl
    · exact Or.inr rfl

theorem build_weapon_hash (g : Game) (file_str rpf_name : String) (item : weapon_node)
    (weapon : weapon_item_parsed) (h : build_weapon g file_str rpf_name item = some weapon) :
    weapon.m_hash = g.joaat item.Name := by
  unfold build_weapon at h
  simp only at h
  split_ifs at h <;> (split at h <;> simp at h) <;> (subst h; rfl)

theorem push_unique {α : Type} (f : α → Nat) (l : List α) (seen : List Nat) (a : α)
    (hn : (l.map f).Nodup) (hs : ∀ x ∈ l, f x ∈ seen) (ha : f a ∉ seen) :
    ((l ++ [a]).map f).Nodup ∧ ∀ x ∈ l ++ [a], f x ∈ seen ++ [f a] := by
  refine ⟨nodup_map_append_singleton f l a hn ?_, ?_⟩
  · intro x hx heq
    exact ha (heq ▸ hs x hx)
  · intro x hx
    rcases List.mem_append.1 hx with h1 | h1
    · exact List.mem_append_left _ (hs x h1)
    · rw [List.mem_singleton.1 h1]
      exact List.mem_append_right _ (List.mem_singleton_self _)

theorem parse_ped_item_unique (g : Game) (st : extraction) (item : ped_node)
    (h : st.unique_hashes) : (parse_ped_item g st item).unique_hashes := by
  unfold parse_ped_item
  simp only
  split_ifs with h1 h2
  · exact h
  · exact h
  · obtain ⟨⟨hp1, hp2⟩, hrest⟩ := h
    have hnew : g.joaat item.Name ∉ st.mapped_peds := by simpa using h2
    exact ⟨push_unique ped_item.m_hash st.peds st.mapped_peds _ hp1 hp2 hnew, hrest⟩

theorem yft_ped_unique (g : Game) (st : extraction) (stem : String)
    (h : st.unique_hashes) : (yft_ped g st stem).unique_hashes := by
  unfold yft_ped
  simp only
  split_ifs with h1 h2
  · exact h
  · exact h
  · obtain ⟨⟨hp1, hp2⟩, hrest⟩ := h
    have hnew : g.joaat stem ∉ st.mapped_peds := by simpa using h2
    exact ⟨push_unique ped_item.m_hash st.peds st.mapped_peds _ hp1 hp2 hnew, hrest⟩

theorem vehicle_item_step_unique (g : Game) (st : extraction) (item : vehicle_node)
    (h : st.unique_hashes) : (vehicle_item_step g st item).unique_hashes := by
  unfold vehicle_item_step
  simp only
  split_ifs with h1 h2
  · exact h
  · exact h
  all_goals
    obtain ⟨hp, ⟨hv1, hv2⟩, hrest⟩ := h
    have hnew : g.joaat (to_upper item.modelName) ∉ st.mapped_vehicles := by
      simpa [hash_exists] using h2
    exact ⟨hp, push_unique vehicle_item.m_hash st.vehicles st.mapped_vehicles _ hv1 hv2 hnew,
      hrest⟩

theorem component_finish_unique (g : Game) (st : extraction) (name : String) (hash : Nat)
    (LocName LocDesc : String) (h : st.unique_hashes)
    (hnew : ∀ c ∈ st.weapon_components, c.m_hash ≠ hash) (hseen : hash ∈ st.mapped_components) :
    (component_finish g st name hash LocName LocDesc).unique_hashes := by
  unfold component_finish
  simp only
  split_ifs with h1
  · exact h
  · obtain ⟨hp, hv, ⟨hc1, hc2⟩, hw⟩ := h
    refine ⟨hp, hv, ⟨nodup_map_append_singleton _ _ _ hc1 hnew, ?_⟩, hw⟩
    intro c hc
    rcases List.mem_append.1 hc with h2 | h2
    · exact hc2 c h2
    · rw [List.mem_singleton.1 h2]
      exact hseen

theorem component_item_step_unique (g : Game) (st : extraction) (item : component_node)
    (h : st.unique_hashes) : (component_item_step g st item).unique_hashes := by
  have hpush : ∀ hash, hash ∉ st.mapped_components →
      ({ st with mapped_components := st.mapped_components ++ [hash] } : extraction).unique_hashes
        ∧ (∀ c ∈ st.weapon_components, c.m_hash ≠ hash) := by
    intro hash hnot
    obtain ⟨hp, hv, ⟨hc1, hc2⟩, hw⟩ := h
    refine ⟨⟨hp, hv, ⟨hc1, fun c hc => List.mem_append_left _ (hc2 c hc)⟩, hw⟩, ?_⟩
    intro c hc heq
    exact hnot (heq ▸ hc2 c hc)
  unfold component_item_step
  simp only
  split_ifs with h1 h2 h3 h4
  · exact h
  · exact h
  · exact (hpush _ (by simpa [hash_exists] using h2)).1
  · have hp := hpush _ (by simpa [hash_exists] using h2)
    split
    · exact hp.1
    · exact component_finish_unique g _ _ _ _ _ hp.1 hp.2
        (List.mem_append_right _ (List.mem_singleton_self _))
  · have hp := hpush _ (by simpa [hash_exists] using h2)
    exact component_finish_unique g _ _ _ _ _ hp.1 hp.2
      (List.mem_append_right _ (List.mem_singleton_self _))

theorem store_weapon_unique (weapons : List (Nat × weapon_item_parsed)) (hash : Nat)
    (weapon : weapon_item_parsed) (hw : weapon.m_hash = hash)
    (h : (weapons.map Prod.fst).Nodup ∧ ∀ kv ∈ weapons, kv.2.m_hash = kv.1) :
    ((store_weapon weapons hash weapon).map Prod.fst).Nodup
      ∧ ∀ kv ∈ store_weapon weapons hash weapon, kv.2.m_hash = kv.1 := by
  rcases store_weapon_cases weapons hash weapon with hs | hs
  · rw [hs]
    exact h
  · rw [hs]
    exact ⟨umap_assign_nodup weapons hash weapon h.1,
      umap_assign_values weapons hash weapon (fun kv => kv.2.m_hash = kv.1) h.2 hw⟩

theorem weapon_item_step_unique (g : Game) (file_str rpf_name : String) (st : extraction)
    (item : weapon_node) (h : st.unique_hashes) :
    (weapon_item_step g file_str rpf_name st item).unique_hashes := by
  obtain ⟨hp, hv, hc, hw⟩ := h
  unfold weapon_item_step
  simp only
  split_ifs with h1 h2 h3
  · exact ⟨hp, hv, hc, hw⟩
  · exact ⟨hp, hv, hc, hw⟩
  · split
    · exact ⟨hp, hv, hc, hw⟩
    · next weapon hb =>
      exact ⟨hp, hv, hc, store_weapon_unique _ _ _ (build_weapon_hash g _ _ _ _ hb) hw⟩
  · split
    · exact ⟨hp, hv, hc, hw⟩
    · next weapon hb =>
      exact ⟨hp, hv, hc, store_weapon_unique _ _ _ (build_weapon_hash g _ _ _ _ hb) hw⟩

theorem on_entry_unique (g : Game) (st : extraction) (e : archive_entry)
    (h : st.unique_hashes) : (on_entry g st e).unique_hashes := by
  unfold on_entry
  split_ifs
  · exact foldl_preserves _ _ (vehicle_item_step_unique g) _ _ h
  · exact foldl_preserves _ _ (component_item_step_unique g) _ _ h
  · exact foldl_preserves _ _ (weapon_item_step_unique g _ _) _ _ h
  · exact foldl_preserves _ _ (parse_ped_item_unique g) _ _ h
  · exact yft_ped_unique g st _ h
  · exact h

theorem extract_unique (g : Game) (entries : List archive_entry) :
    (extract g entries).unique_hashes := by
  refine foldl_preserves _ _ (on_entry_unique g) _ _ ?_
  simp [extraction.unique_hashes, extraction.start]

/-- Claim C3.  Whatever entries the archive walk feeds to the callback, no two peds, no two
vehicles, no two weapons and no two weapon components of the extraction outputs have the same
hash; peds from `peds.meta` and peds from loose `.yft` files go through the one callback and
the one seen-hash list. -/
theorem extraction_hashes_unique (g : Game) (entries : List archive_entry) :
    ((extract g entries).peds.map ped_item.m_hash).Nodup
      ∧ ((extract g entries).vehicles.map vehicle_item.m_hash).Nodup
      ∧ ((extract g entries).weapons.map (fun kv => kv.2.m_hash)).Nodup
      ∧ ((extract g entries).weapon_components.map weapon_component.m_hash).Nodup := by
  obtain ⟨hp, hv, hc, hw⟩ := extract_unique g entries
  refine ⟨hp.1, hv.1, ?_, hc.1⟩
  have hmap : (extract g entries).weapons.map (fun kv => kv.2.m_hash)
      = (extract g entries).weapons.map Prod.fst :=
    List.map_congr_left hw.2
  rw [hmap]
  exact hw.1

theorem mem_push {α : Type} (P : α → Prop) (l : List α) (a : α) (hl : ∀ x ∈ l, P x)
    (ha : P a) : ∀ x ∈ l ++ [a], P x := by
  intro x hx
  rcases List.mem_append.1 hx with h1 | h1
  · exact hl x h1
  · rw [List.mem_singleton.1 h1]
    exact ha

theorem parse_ped_item_clean (g : Game) (st : extraction) (item : ped_node)
    (h : st.no_crash_models g) : (parse_ped_item g st item).no_crash_models g := by
  unfold parse_ped_item
  simp only
  split_ifs with h1 h2
  · exact h
  · exact h
  · exact ⟨mem_push _ _ _ h.1 (by simpa using h1), h.2⟩

theorem yft_ped_clean (g : Game) (st : extraction) (stem : String)
    (h : st.no_crash_models g) : (yft_ped g st stem).no_crash_models g := by
  unfold yft_ped
  simp only
  split_ifs with h1 h2
  · exact h
  · exact h
  · exact ⟨mem_push _ _ _ h.1 (by simpa using h1), h.2⟩

theorem vehicle_item_step_clean (g : Game) (st : extraction) (item : vehicle_node)
    (h : st.no_crash_models g) : (vehicle_item_step g st item).no_crash_models g := by
  unfold vehicle_item_step
  simp only
  split_ifs with h1 h2 h3
  · exact h
  · exact h
  all_goals exact ⟨h.1, mem_push _ _ _ h.2 (by simpa using h1)⟩

theorem component_item_step_clean (g : Game) (st : extraction) (item : component_node)
    (h : st.no_crash_models g) : (component_item_step g st item).no_crash_models g := by
  unfold component_item_step component_finish
  simp only
  split_ifs <;> first | exact h | (split <;> first | exact h | (split_ifs <;> exact h))

theorem weapon_item_step_clean (g : Game) (file_str rpf_name : String) (st : extraction)
    (item : weapon_node) (h : st.no_crash_models g) :
    (weapon_item_step g file_str rpf_name st item).no_crash_models g := by
  unfold weapon_item_step
  simp only
  split_ifs
  · exact h
  · exact h
  · split
    · exact h
    · exact h
  · split
    · exact h
    · exact h

theorem on_entry_clean (g : Game) (st : extraction) (e : archive_entry)
    (h : st.no_crash_models g) : (on_entry g st e).no_crash_models g := by
  unfold on_entry
  split_ifs
  · exact foldl_preserves _ _ (vehicle_item_step_clean g) _ _ h
  · exact foldl_preserves _ _ (component_item_step_clean g) _ _ h
  · exact foldl_preserves _ _ (weapon_item_step_clean g _ _) _ _ h
  · exact foldl_preserves _ _ (parse_ped_item_clean g) _ _ h
  · exact yft_ped_clean g st _ h
  · exact h

/-- Claim C4.  Whatever entries the archive walk feeds to the callback, the extracted ped list
holds no ped whose hash `is_crash_ped` flags (through `peds.meta` or through a loose `.yft`
file), and the extracted vehicle list holds no vehicle whose hash `is_crash_vehicle` flags. -/
theorem extraction_excludes_crash_models (g : Game) (entries : List archive_entry) :
    (∀ p ∈ (extract g entries).peds, g.is_crash_ped p.m_hash = false)
      ∧ ∀ v ∈ (extract g entries).vehicles, g.is_crash_vehicle v.m_hash = false := by
  refine foldl_preserves (fun st => extraction.no_crash_models g st) _ (on_entry_clean g) _ _ ?_
  simp [extraction.no_crash_models, extraction.start]

/-! ### Lookups -/

theorem scan_by_hash_empty_iff {α : Type} (m_hash : α → Nat) (m : List (String × α))
    (hash : Nat) : scan_by_hash m_hash m hash = .empty ↔ ∀ kv ∈ m, m_hash kv.2 ≠ hash := by
  induction m with
  | nil => simp [scan_by_hash]
  | cons kv rest ih =>
    obtain ⟨k, v⟩ := kv
    by_cases hv : m_hash v = hash
    · simp [scan_by_hash, hv]
    · simp [scan_by_hash, hv, ih]

theorem scan_by_hash_stored {α : Type} (m_hash : α → Nat) (m : List (String × α))
    (hash : Nat) (item : α) (h : scan_by_hash m_hash m hash = .stored item) :
    m_hash item = hash ∧ ∃ key, (key, item) ∈ m := by
  induction m with
  | nil => simp [scan_by_hash] at h
  | cons kv rest ih =>
    obtain ⟨k, v⟩ := kv
    by_cases hv : m_hash v = hash
    · simp only [scan_by_hash, hv, if_true, item_ref.stored.injEq] at h
      subst h
      exact ⟨hv, k, List.mem_cons_self _ _⟩
    · simp only [scan_by_hash, hv, if_false] at h
      obtain ⟨h1, key, h2⟩ := ih h
      exact ⟨h1, key, List.mem_cons_of_mem _ h2⟩

theorem scan_by_hash_found {α : Type} (m_hash : α → Nat) (m : List (String × α))
    (hash : Nat) :
    (¬ ∃ kv ∈ m, m_hash kv.2 = hash) ∧ scan_by_hash m_hash m hash = .empty
      ∨ (∃ kv ∈ m, m_hash kv.2 = hash)
        ∧ ∃ item, scan_by_hash m_hash m hash = .stored item ∧ m_hash item = hash
          ∧ ∃ key, (key, item) ∈ m := by
  cases hres : scan_by_hash m_hash m hash with
  | empty =>
    left
    refine ⟨?_, rfl⟩
    rintro ⟨kv, hkv, heq⟩
    exact (scan_by_hash_empty_iff m_hash m hash).1 hres kv hkv heq
  | stored item =>
    right
    obtain ⟨h1, key, h2⟩ := scan_by_hash_stored m_hash m hash item hres
    exact ⟨⟨(key, item), h2, h1⟩, item, rfl, h1, key, h2⟩

theorem scan_by_name_empty_iff (m : List (String × weapon_component)) (name : String) :
    scan_by_name m name = .empty ↔ ∀ kv ∈ m, kv.1 ≠ name := by
  induction m with
  | nil => simp [scan_by_name]
  | cons kv rest ih =>
    obtain ⟨k, v⟩ := kv
    by_cases hk : k = name
    · simp [scan_by_name, hk]
    · simp [scan_by_name, hk, ih]

/-- Claim C5.  Each of the four lookups by hash either finds no catalogue entity with the
hash and returns the empty object of its kind, or finds one and returns a stored record whose
hash field is the hash asked for; `weapon_component_by_name` returns the empty object exactly
when no key of the component catalogue equals the name. -/
theorem lookups_return_match_or_empty (s : gta_data_service) (hash : Nat) (name : String) :
    ((¬ ∃ kv ∈ s.m_peds, kv.2.m_hash = hash) ∧ s.ped_by_hash hash = .empty
        ∨ (∃ kv ∈ s.m_peds, kv.2.m_hash = hash)
          ∧ ∃ item, s.ped_by_hash hash = .stored item ∧ item.m_hash = hash
            ∧ ∃ key, (key, item) ∈ s.m_peds)
      ∧ ((¬ ∃ kv ∈ s.m_vehicles, kv.2.m_hash = hash) ∧ s.vehicle_by_hash hash = .empty
        ∨ (∃ kv ∈ s.m_vehicles, kv.2.m_hash = hash)
          ∧ ∃ item, s.vehicle_by_hash hash = .stored item ∧ item.m_hash = hash
            ∧ ∃ key, (key, item) ∈ s.m_vehicles)
      ∧ ((¬ ∃ kv ∈ s.m_weapons_cache.weapon_map, kv.2.m_hash = hash)
          ∧ s.weapon_by_hash hash = .empty
        ∨ (∃ kv ∈ s.m_weapons_cache.weapon_map, kv.2.m_hash = hash)
          ∧ ∃ item, s.weapon_by_hash hash = .stored item ∧ item.m_hash = hash
            ∧ ∃ key, (key, item) ∈ s.m_weapons_cache.weapon_map)
      ∧ ((¬ ∃ kv ∈ s.m_weapons_cache.weapon_components, kv.2.m_hash = hash)
          ∧ s.weapon_component_by_hash hash = .empty
        ∨ (∃ kv ∈ s.m_weapons_cache.weapon_components, kv.2.m_hash = hash)
          ∧ ∃ item, s.weapon_component_by_hash hash = .stored item ∧ item.m_hash = hash
            ∧ ∃ key, (key, item) ∈ s.m_weapons_cache.weapon_components)
      ∧ (s.weapon_component_by_name name = .empty
        ↔ ∀ kv ∈ s.m_weapons_cache.weapon_components, kv.1 ≠ name) :=
  ⟨scan_by_hash_found _ _ _, scan_by_hash_found _ _ _, scan_by_hash_found _ _ _,
    scan_by_hash_found _ _ _, scan_by_name_empty_iff _ _⟩

/-! ### Category lists -/

theorem add_if_not_exists_nodup (vec : List String) (str : String) (h : vec.Nodup) :
    (add_if_not_exists vec str).2.Nodup := by
  unfold add_if_not_exists
  split_ifs with hc
  · exact h
  · have hnot : str ∉ vec := by simpa using hc
    rw [List.nodup_append]
    refine ⟨h, List.nodup_singleton _, ?_⟩
    intro x hx hy
    rw [List.mem_singleton.1 hy] at hx
    exact hnot hx

theorem add_if_not_exists_mem (vec : List String) (str x : String) :
    x ∈ (add_if_not_exists vec str).2 ↔ x ∈ vec ∨ x = str := by
  unfold add_if_not_exists
  split_ifs with hc
  · have hin : str ∈ vec := by simpa using hc
    constructor
    · exact Or.inl
    · rintro (h | h)
      · exact h
      · exact h ▸ hin
  · simp

theorem sort_strings_sorted_nodup (vec : List String) (h : vec.Nodup) :
    sorted_nodup (sort_strings vec) :=
  ⟨(List.perm_insertionSort (· ≤ ·) vec).nodup_iff.2 h, List.sorted_insertionSort (· ≤ ·) vec⟩

theorem mem_sort_strings (vec : List String) (x : String) : x ∈ sort_strings vec ↔ x ∈ vec :=
  (List.perm_insertionSort (· ≤ ·) vec).mem_iff

theorem load_peds_ped_types (s : gta_data_service) (mem : memory_after) :
    sorted_nodup (s.load_peds mem).m_ped_types := by
  unfold gta_data_service.load_peds
  simp only
  apply sort_strings_sorted_nodup
  refine foldl_preserves (fun (t : gta_data_service) => t.m_ped_types.Nodup) _ ?_ _ _ ?_
  · intro t ped ht
    exact add_if_not_exists_nodup _ _ ht
  · exact List.nodup_nil

theorem load_peds_frame (s : gta_data_service) (mem : memory_after) :
    (s.load_peds mem).m_vehicle_classes = s.m_vehicle_classes
      ∧ (s.load_peds mem).m_weapon_types = s.m_weapon_types
      ∧ (s.load_peds mem).m_vehicles_cache = s.m_vehicles_cache
      ∧ (s.load_peds mem).m_weapons_cache = s.m_weapons_cache := by
  unfold gta_data_service.load_peds
  simp only
  refine foldl_preserves
    (fun (t : gta_data_service) => t.m_vehicle_classes = s.m_vehicle_classes
      ∧ t.m_weapon_types = s.m_weapon_types ∧ t.m_vehicles_cache = s.m_vehicles_cache
      ∧ t.m_weapons_cache = s.m_weapons_cache)
    _ ?_ _ _ ⟨rfl, rfl, rfl, rfl⟩
  intro t ped ht
  exact ht

theorem load_vehicles_vehicle_classes (s : gta_data_service) (mem : memory_after) :
    sorted_nodup (s.load_vehicles mem).m_vehicle_classes := by
  unfold gta_data_service.load_vehicles
  simp only
  apply sort_strings_sorted_nodup
  refine foldl_preserves (fun (t : gta_data_service) => t.m_vehicle_classes.Nodup) _ ?_ _ _ ?_
  · intro t vehicle ht
    exact add_if_not_exists_nodup _ _ ht
  · exact List.nodup_nil

theorem load_vehicles_frame (s : gta_data_service) (mem : memory_after) :
    (s.load_vehicles mem).m_ped_types = s.m_ped_types
      ∧ (s.load_vehicles mem).m_weapon_types = s.m_weapon_types
      ∧ (s.load_vehicles mem).m_peds = s.m_peds
      ∧ (s.load_vehicles mem).m_weapons_cache = s.m_weapons_cache := by
  unfold gta_data_service.load_vehicles
  simp only
  refine foldl_preserves
    (fun (t : gta_data_service) => t.m_ped_types = s.m_ped_types
      ∧ t.m_weapon_types = s.m_weapon_types ∧ t.m_peds = s.m_peds
      ∧ t.m_weapons_cache = s.m_weapons_cache)
    _ ?_ _ _ ⟨rfl, rfl, rfl, rfl⟩
  intro t vehicle ht
  exact ht

theorem load_data_weapon_types (s : gta_data_service) (mem : memory_after) :
    (s.load_data mem).m_weapon_types = sort_strings s.m_weapon_types := by
  unfold gta_data_service.load_data gta_data_service.load_weapons
  simp only
  rw [(load_vehicles_frame _ _).2.1, (load_peds_frame _ _).2.1]

theorem load_data_weapons_cache (s : gta_data_service) (mem : memory_after) :
    (s.load_data mem).m_weapons_cache = s.m_weapons_cache := by
  unfold gta_data_service.load_data gta_data_service.load_weapons
  simp only
  rw [(load_vehicles_frame _ _).2.2.2, (load_peds_frame _ _).2.2.2]

theorem load_data_lists (s : gta_data_service) (mem : memory_after)
    (h : s.m_weapon_types.Nodup) :
    sorted_nodup (s.load_data mem).ped_types ∧ sorted_nodup (s.load_data mem).vehicle_classes
      ∧ sorted_nodup (s.load_data mem).weapon_types := by
  refine ⟨?_, ?_, ?_⟩
  · unfold gta_data_service.ped_types gta_data_service.load_data
      gta_data_service.load_weapons
    simp only
    rw [(load_vehicles_frame _ _).1]
    exact load_peds_ped_types s mem
  · unfold gta_data_service.vehicle_classes gta_data_service.load_data
      gta_data_service.load_weapons
    simp only
    exact load_vehicles_vehicle_classes _ _
  · unfold gta_data_service.weapon_types
    rw [load_data_weapon_types]
    exact sort_strings_sorted_nodup _ h

theorem init_cases (mem : memory_after) (dir : cache_dir) (file_version : Nat) :
    ∃ t : gta_data_service, t.m_ped_types = [] ∧ t.m_vehicle_classes = []
      ∧ t.m_weapon_types = []
      ∧ t.m_weapons_cache = dir.weapons_json.getD weapons_cache.fresh
      ∧ (gta_data_service.create.init mem dir file_version
            = { t with m_update_state := .NEEDS_UPDATE }
          ∨ t.m_weapons_cache.up_to_date file_version = true
            ∧ gta_data_service.create.init mem dir file_version = t.load_data mem) := by
  unfold gta_data_service.init gta_data_service.is_cache_up_to_date
  simp only
  split_ifs with hup
  · cases hj : dir.weapons_json with
    | none => exact ⟨_, rfl, rfl, rfl, rfl, Or.inl rfl⟩
    | some parsed => exact ⟨_, rfl, rfl, rfl, rfl, Or.inl rfl⟩
  · have hup2 := hup
    simp only [Bool.not_eq_true, Bool.not_eq_false_eq_eq_true, Bool.not_not,
      Bool.and_eq_true] at hup2
    cases hj : dir.weapons_json with
    | none =>
      rw [hj] at hup2
      exact ⟨_, rfl, rfl, rfl, rfl, Or.inr ⟨hup2.2, rfl⟩⟩
    | some parsed =>
      rw [hj] at hup2
      exact ⟨_, rfl, rfl, rfl, rfl, Or.inr ⟨hup2.2, rfl⟩⟩

theorem save_and_load_eq (s : gta_data_service) (mem : memory_after) (file_version : Nat)
    (game_build online_version : String) (peds : List ped_item) (vehicles : List vehicle_item)
    (weapons : List (Nat × weapon_item_parsed)) (weapon_components : List weapon_component) :
    ∃ t : gta_data_service,
      s.save_and_load mem file_version game_build online_version peds vehicles weapons
          weapon_components = t.load_data mem
        ∧ t.m_weapon_types
          = weapons.foldl (fun acc weapon => (add_if_not_exists acc weapon.2.m_weapon_type).2) []
        ∧ t.m_weapons_cache.weapon_map
          = weapons.foldl
            (fun acc weapon => map_insert acc weapon.2.m_name weapon.2.toweapon_item) [] := by
  refine ⟨_, rfl, ?_, ?_⟩
  · refine foldl_preserves
      (fun (t : gta_data_service) => t.m_weapon_types
        = weapons.foldl (fun acc weapon => (add_if_not_exists acc weapon.2.m_weapon_type).2) [])
      _ ?_ _ _ ?_
    · intro t c ht
      exact ht
    · simp only
      generalize ([] : List String) = acc0
      generalize s.m_weapons_cache.weapon_components = comps0
      generalize ([] : List (String × weapon_item)) = map0
      induction weapons generalizing acc0 map0 with
      | nil => rfl
      | cons w ws ih => exact ih _ _
  · refine foldl_preserves
      (fun (t : gta_data_service) => t.m_weapons_cache.weapon_map
        = weapons.foldl
          (fun acc weapon => map_insert acc weapon.2.m_name weapon.2.toweapon_item) [])
      _ ?_ _ _ ?_
    · intro t c ht
      exact ht
    · simp only
      generalize ([] : List String) = acc0
      generalize s.m_weapons_cache.weapon_components = comps0
      generalize ([] : List (String × weapon_item)) = map0
      induction weapons generalizing acc0 map0 with
      | nil => rfl
      | cons w ws ih => exact ih _ _

theorem weapon_types_fold_nodup (weapons : List (Nat × weapon_item_parsed)) :
    (weapons.foldl (fun acc weapon => (add_if_not_exists acc weapon.2.m_weapon_type).2)
      []).Nodup := by
  refine foldl_preserves (fun (acc : List String) => acc.Nodup) _ ?_ _ _ List.nodup_nil
  intro acc w hacc
  exact add_if_not_exists_nodup _ _ hacc

/-- Claim C6.  After `load_data`, the lists that `ped_types()`, `vehicle_classes()` and
`weapon_types()` return hold no string twice and are in ascending lexicographic order, both
after `init` on a freshly constructed service (for any cache directory and build stamp) and
after the write job that ends a rebuild (for any service state and any rebuilt collections),
whatever lies in memory behind the character arrays of the cached records. -/
theorem category_lists_sorted_nodup :
    (∀ (mem : memory_after) (dir : cache_dir) (file_version : Nat),
        sorted_nodup (gta_data_service.create.init mem dir file_version).ped_types
          ∧ sorted_nodup (gta_data_service.create.init mem dir file_version).vehicle_classes
          ∧ sorted_nodup (gta_data_service.create.init mem dir file_version).weapon_types)
      ∧ ∀ (s : gta_data_service) (mem : memory_after) (file_version : Nat)
          (game_build online_version : String)
          (peds : List ped_item) (vehicles : List vehicle_item)
          (weapons : List (Nat × weapon_item_parsed))
          (weapon_components : List weapon_component),
        sorted_nodup (s.save_and_load mem file_version game_build online_version peds vehicles
            weapons weapon_components).ped_types
          ∧ sorted_nodup (s.save_and_load mem file_version game_build online_version peds
            vehicles weapons weapon_components).vehicle_classes
          ∧ sorted_nodup (s.save_and_load mem file_version game_build online_version peds
            vehicles weapons weapon_components).weapon_types := by
  constructor
  · intro mem dir file_version
    obtain ⟨t, hp, hv, hw, -, hinit | ⟨-, hinit⟩⟩ := init_cases mem dir file_version
    · rw [hinit]
      simp [gta_data_service.ped_types, gta_data_service.vehicle_classes,
        gta_data_service.weapon_types, hp, hv, hw, sorted_nodup]
    · rw [hinit]
      exact load_data_lists t mem (by rw [hw]; exact List.nodup_nil)
  · intro s mem file_version game_build online_version peds vehicles weapons weapon_components
    obtain ⟨t, ht, hw, -⟩ := save_and_load_eq s mem file_version game_build online_version
      peds vehicles weapons weapon_components
    rw [ht]
    exact load_data_lists t mem (by rw [hw]; exact weapon_types_fold_nodup weapons)

/-- Claim C7, the code at a failing input.  On the `init` path `load_weapons` only sorts
`m_weapon_types`, which the constructor left empty, so `weapon_types()` is empty after `init`
for every cache directory; with an up-to-date cache holding a weapon of type "PISTOL" the
service is `IDLE`, the weapon is in the loaded weapon map, and "PISTOL" is not in
`weapon_types()`. -/
theorem init_leaves_weapon_types_empty :
    (∀ (mem : memory_after) (dir : cache_dir) (file_version : Nat),
        (gta_data_service.create.init mem dir file_version).weapon_types = [])
      ∧ (gta_data_service.create.init sample_memory sample_cache_dir 1).m_update_state = .IDLE
      ∧ (∃ kv ∈ (gta_data_service.create.init sample_memory
            sample_cache_dir 1).m_weapons_cache.weapon_map,
          kv.2.m_weapon_type = "PISTOL")
      ∧ "PISTOL" ∉ (gta_data_service.create.init sample_memory sample_cache_dir 1).weapon_types
        := by
  have hall : ∀ (mem : memory_after) (dir : cache_dir) (file_version : Nat),
      (gta_data_service.create.init mem dir file_version).weapon_types = [] := by
    intro mem dir file_version
    obtain ⟨t, -, -, hw, -, hinit | ⟨-, hinit⟩⟩ := init_cases mem dir file_version
    · rw [hinit]
      exact hw
    · rw [hinit]
      unfold gta_data_service.weapon_types
      rw [load_data_weapon_types, hw]
      rfl
  refine ⟨hall, by decide, by decide, ?_⟩
  rw [hall]
  exact List.not_mem_nil _

/-! ### Weapon components -/

/-- Counterexample for C8: the raw `LocName` "WCT_INVALID" ends in "INVALID", the resolver
answers "WCT_RAIL", which ends in "RAIL", and the component is appended all the same, with
"WCT_RAIL" as its display name. -/
theorem resolved_rail_name_is_kept :
    resolved_display_name sample_game sample_unresolved_component = some "WCT_RAIL"
      ∧ ends_with "WCT_RAIL" "RAIL" = true
      ∧ (component_item_step sample_game extraction.start
          sample_unresolved_component).weapon_components
        = [{ m_name := "COMPONENT_AT_RAILCOVER_01"
             m_hash := sample_joaat "COMPONENT_AT_RAILCOVER_01"
             m_display_name := "WCT_RAIL"
             m_display_desc := "" }] := by
  decide

theorem rail_suffix_is_not_invalid (n : String) (h : ends_with n "RAIL" = true) :
    ends_with n "INVALID" = false := by
  unfold ends_with at *
  have hrail : ("RAIL" : String).data.reverse = ['L', 'I', 'A', 'R'] := by decide
  have hinvalid : ("INVALID" : String).data.reverse = ['D', 'I', 'L', 'A', 'V', 'N', 'I'] := by
    decide
  rw [hrail] at h
  rw [hinvalid]
  generalize n.data.reverse = l at *
  cases l with
  | nil => simp [List.isPrefixOf] at h
  | cons c cs =>
    simp only [List.isPrefixOf, Bool.and_eq_true, beq_iff_eq] at h
    rw [← h.1]
    simp [List.isPrefixOf]

theorem component_dropped (g : Game) (st : extraction) (item : component_node)
    (h : ends_with item.LocName "RAIL" = true
      ∨ ∃ n, resolved_display_name g item = some n ∧ ends_with n "INVALID" = true) :
    (component_item_step g st item).weapon_components = st.weapon_components := by
  unfold component_item_step
  simp only
  split_ifs with h1 h2 h3 h4
  · rfl
  · rfl
  · rfl
  · rcases h with h | ⟨n, hn, hinv⟩
    · exact absurd h h3
    · unfold resolved_display_name at hn
      rw [if_pos h4] at hn
      rw [hn]
      simp only
      unfold component_finish
      rw [if_pos hinv]
  · rcases h with h | ⟨n, hn, hinv⟩
    · exact absurd h h3
    · unfold resolved_display_name at hn
      rw [if_neg h4] at hn
      cases hn
      exact absurd hinv h4

theorem component_resolved_kept (g : Game) (st : extraction) (item : component_node)
    (hname : starts_with item.Name "COMPONENT" = true)
    (hupgrade : ends_with item.Name "MK2_UPGRADE" = false)
    (hseen : hash_exists st.mapped_components (g.joaat item.Name) = false)
    (hraw : ends_with item.LocName "INVALID" = true) (n : String)
    (hres : g.get_component_name_string (g.joaat item.Name)
      (component_weapon_hash g item.Name) = some n)
    (hn : ends_with n "INVALID" = false) :
    (component_item_step g st item).weapon_components
      = st.weapon_components
        ++ [{ m_name := item.Name, m_hash := g.joaat item.Name, m_display_name := n
              m_display_desc := component_desc g (g.joaat item.Name) item.LocDesc }] := by
  have hrail : ends_with item.LocName "RAIL" = false := by
    cases hr : ends_with item.LocName "RAIL" with
    | false => rfl
    | true =>
      have := rail_suffix_is_not_invalid _ hr
      rw [hraw] at this
      cases this
  unfold component_item_step
  simp only
  rw [if_neg (by simp [hname, hupgrade]), if_neg (by simp [hseen]), if_neg (by simp [hrail]),
    if_pos hraw, hres]
  simp only
  unfold component_finish
  rw [if_neg (by simp [hn])]

/-- Claim C8, amended.  For every component item and every resolver: when the raw `LocName`
ends in "RAIL", or the resolved display name ends in "INVALID", the handler appends nothing
to `weapon_components`; and a resolver string ending in "RAIL" is not filtered: when the item
passes the name and seen-hash tests, its raw `LocName` ends in "INVALID" and the resolver
answers a string ending in "RAIL", the component is appended with that string as its display
name. -/
theorem component_name_filter (g : Game) (st : extraction) (item : component_node) :
    ((ends_with item.LocName "RAIL" = true
        ∨ ∃ n, resolved_display_name g item = some n ∧ ends_with n "INVALID" = true)
      → (component_item_step g st item).weapon_components = st.weapon_components)
    ∧ (starts_with item.Name "COMPONENT" = true
      → ends_with item.Name "MK2_UPGRADE" = false
      → hash_exists st.mapped_components (g.joaat item.Name) = false
      → ends_with item.LocName "INVALID" = true
      → ∀ n, resolved_display_name g item = some n
      → ends_with n "RAIL" = true
      → (component_item_step g st item).weapon_components
        = st.weapon_components
          ++ [{ m_name := item.Name, m_hash := g.joaat item.Name, m_display_name := n
                m_display_desc := component_desc g (g.joaat item.Name) item.LocDesc }]) := by
  refine ⟨component_dropped g st item, ?_⟩
  intro hname hupgrade hseen hraw n hres hrail
  unfold resolved_display_name at hres
  rw [if_pos hraw] at hres
  exact component_resolved_kept g st item hname hupgrade hseen hraw n hres
    (rail_suffix_is_not_invalid n hrail)

/-- Witness for C8 amended: a component whose raw `LocName` is "WCT_RAIL" is dropped, and a
component whose raw `LocName` "WCT_INVALID" is resolved to "WCT_RAIL" is appended. -/
theorem component_name_filter_witness :
    (component_item_step sample_game extraction.start
          sample_rail_component).weapon_components = extraction.start.weapon_components
      ∧ (component_item_step sample_game extraction.start
          sample_unresolved_component).weapon_components
        = extraction.start.weapon_components
          ++ [{ m_name := sample_unresolved_component.Name
                m_hash := sample_game.joaat sample_unresolved_component.Name
                m_display_name := "WCT_RAIL"
                m_display_desc := component_desc sample_game
                  (sample_game.joaat sample_unresolved_component.Name)
                  sample_unresolved_component.LocDesc }] :=
  ⟨(component_name_filter sample_game extraction.start sample_rail_component).1
      (Or.inl (by decide)),
    (component_name_filter sample_game extraction.start sample_unresolved_component).2
      (by decide) (by decide) (by decide) (by decide) "WCT_RAIL" (by decide) (by decide)⟩

/-! ### Weapon flags -/

theorem find_char_lt (c : Char) (l : List Char) (pos : Nat) (h : find_char c l = some pos) :
    pos < l.length := by
  induction l generalizing pos with
  | nil => simp [find_char] at h
  | cons x xs ih =>
    unfold find_char at h
    split_ifs at h with hx
    · cases h
      simp
    · cases hf : find_char c xs with
      | none => simp [hf] at h
      | some q =>
        simp only [hf, Option.map_some', Option.some.injEq] at h
        have := ih q hf
        simp only [List.length_cons]
        omega

theorem flag_loop_fuel_irrelevant (n m : Nat) (l : List Char) (acc : weapon_flag_state)
    (hn : l.length < n) (hm : l.length < m) : flag_loop n l acc = flag_loop m l acc := by
  induction n generalizing m l acc with
  | zero => omega
  | succ n ih =>
    cases m with
    | zero => omega
    | succ m =>
      unfold flag_loop
      cases hf : find_char ' ' l with
      | none => rfl
      | some pos =>
        have hpos := find_char_lt _ _ _ hf
        have hlen : (l.drop (pos + 1)).length < l.length := by
          rw [List.length_drop]
          omega
        simp only
        split_ifs
        · exact ih _ _ _ (by omega) (by omega)
        · exact ih _ _ _ (by omega) (by omega)
        · exact ih _ _ _ (by omega) (by omega)
        · rfl
        · exact ih _ _ _ (by omega) (by omega)

/-- The iteration bound of `parse_weapon_flags` is enough: any larger bound gives the same
result, so the loop always runs to its exit. -/
theorem flag_loop_fuel (n : Nat) (weapon_flags : String) (h : weapon_flags.data.length < n) :
    flag_loop n weapon_flags.data
        { m_throwable := false, is_gun := false, is_rechargable := false }
      = parse_weapon_flags weapon_flags :=
  flag_loop_fuel_irrelevant _ _ _ _ h (Nat.lt_succ_self _)

/-- Claim C9, the code at a failing input.  With `WeaponFlags` "Gun Vehicle" the loop sees the
flag "Gun" only: "Vehicle" is the last token and no space follows it, so it is never compared
and the item is stored in the weapons map.  With a space after it the item is skipped. -/
theorem vehicle_flag_as_last_token_is_stored :
    parse_weapon_flags "Gun Vehicle"
        = some { m_throwable := false, is_gun := true, is_rechargable := false }
      ∧ (weapon_item_step sample_game "x64/common/data/ai/weapons.meta" "common.rpf"
          extraction.start (sample_pistol "Gun Vehicle")).weapons.map Prod.fst
        = [sample_joaat "WEAPON_PISTOL"]
      ∧ (weapon_item_step sample_game "x64/common/data/ai/weapons.meta" "common.rpf"
          extraction.start (sample_pistol "Gun Vehicle ")).weapons = [] := by
  decide

/-- Claim C10, the code at a failing input.  With `WeaponFlags` "Gun" (no space after the last
token) the emitted WEAPON_PISTOL has type "PISTOL" and neither reward hash, although its flags
contain "Gun".  With the flags "Gun DisplayRechargeTimeHUD " of the claim's example it is not
throwable, has type "PISTOL", the reward hash of "REWARD_WEAPON_PISTOL" and no reward-ammo
hash; with "Gun " it has the reward-ammo hash of "REWARD_AMMO_PISTOL" as well. -/
theorem gun_flag_as_last_token_is_missed :
    build_weapon sample_game "x64/common/data/ai/weapons.meta" "common.rpf"
          (sample_pistol "Gun")
        = some
          { m_name := "WEAPON_PISTOL", m_display_name := "WT_PIST", m_display_desc := ""
            m_weapon_type := "PISTOL", m_throwable := false
            m_reward_hash := none
            m_reward_ammo_hash := none
            m_attachments := ["COMPONENT_PISTOL_CLIP_01"]
            m_hash := sample_joaat "WEAPON_PISTOL", rpf_file_type := .BASE }
      ∧ build_weapon sample_game "x64/common/data/ai/weapons.meta" "common.rpf"
          (sample_pistol "Gun DisplayRechargeTimeHUD ")
        = some
          { m_name := "WEAPON_PISTOL", m_display_name := "WT_PIST", m_display_desc := ""
            m_weapon_type := "PISTOL", m_throwable := false
            m_reward_hash := some (sample_joaat "REWARD_WEAPON_PISTOL")
            m_reward_ammo_hash := none
            m_attachments := ["COMPONENT_PISTOL_CLIP_01"]
            m_hash := sample_joaat "WEAPON_PISTOL", rpf_file_type := .BASE }
      ∧ build_weapon sample_game "x64/common/data/ai/weapons.meta" "common.rpf"
          (sample_pistol "Gun ")
        = some
          { m_name := "WEAPON_PISTOL", m_display_name := "WT_PIST", m_display_desc := ""
            m_weapon_type := "PISTOL", m_throwable := false
            m_reward_hash := some (sample_joaat "REWARD_WEAPON_PISTOL")
            m_reward_ammo_hash := some (sample_joaat "REWARD_AMMO_PISTOL")
            m_attachments := ["COMPONENT_PISTOL_CLIP_01"]
            m_hash := sample_joaat "WEAPON_PISTOL", rpf_file_type := .BASE } := by
  decide

theorem drop_of_length_le (s : String) (n : Nat) (h : s.length ≤ n) : s.drop n = "" := by
  rw [String.drop_eq]
  have hlen : s.data.length ≤ n := h
  rw [List.drop_of_length_le hlen]

/-- What the weapon handler emits, in terms of the booleans its flag loop computed: the type
is `Group` without its first 6 characters, the reward hash is set iff `is_gun` or the type is
"MELEE" or "UNARMED", the reward-ammo hash iff `is_gun` and not `is_rechargable`. -/
theorem build_weapon_emits (g : Game) (file_str rpf_name : String) (item : weapon_node)
    (w : weapon_item_parsed) (h : build_weapon g file_str rpf_name item = some w) :
    ∃ flags, parse_weapon_flags item.WeaponFlags = some flags
      ∧ w.m_throwable = flags.m_throwable
      ∧ w.m_weapon_type = item.Group.drop 6
      ∧ w.m_reward_hash
        = (if flags.is_gun = true ∨ w.m_weapon_type = "MELEE" ∨ w.m_weapon_type = "UNARMED"
          then some (g.joaat ("REWARD_" ++ item.Name)) else none)
      ∧ w.m_reward_ammo_hash
        = (if flags.is_gun = true ∧ flags.is_rechargable = false
          then some (g.joaat ("REWARD_" ++ "AMMO_" ++ item.Name.drop 7)) else none) := by
  unfold build_weapon at h
  simp only at h
  by_cases h1 : item.HumanNameHash = "WT_INVALID" ∨ item.HumanNameHash = "WT_VEHMINE"
  · rw [if_pos h1] at h
    cases h
  rw [if_neg h1] at h
  cases hflags : parse_weapon_flags item.WeaponFlags with
  | none => simp [hflags] at h
  | some flags =>
    simp only [hflags] at h
    by_cases h2 : item.Group.length = 0 ∨ item.Group = "GROUP_DIGISCANNER"
    · rw [if_pos h2] at h
      cases h
    rw [if_neg h2, Option.some.injEq] at h
    subst h
    refine ⟨flags, rfl, rfl, ?_, ?_, ?_⟩
    · show (if item.Group.length > 6 then item.Group.drop 6 else "") = item.Group.drop 6
      split_ifs with h3
      · rfl
      · exact (drop_of_length_le _ _ (by omega)).symm
    · simp only [Bool.or_eq_true, decide_eq_true_eq, or_assoc]
    · cases hg : flags.is_gun <;> cases hr : flags.is_rechargable <;> simp

/-! ### Fixed-size character fields -/

theorem takeWhile_append_stop (p : Char → Bool) (l rest : List Char) (a : Char)
    (hl : ∀ c ∈ l, p c = true) (ha : p a = false) :
    (l ++ a :: rest).takeWhile p = l := by
  induction l with
  | nil => simp [List.takeWhile, ha]
  | cons c cs ih =>
    have hc : p c = true := hl c (List.mem_cons_self _ _)
    have hcs : ∀ x ∈ cs, p x = true := fun x hx => hl x (List.mem_cons_of_mem _ hx)
    simp [List.takeWhile, hc, ih hcs]

/-- A source shorter than the array comes back unchanged when the field is read as a C
string, whatever follows the array in memory. -/
theorem read_c_string_strncpy (src : String) (n : Nat) (following : List Char)
    (hlen : src.data.length < n) (hnul : NUL ∉ src.data) :
    read_c_string (strncpy src n) following = src := by
  unfold read_c_string strncpy
  obtain ⟨k, hk⟩ : ∃ k, n - src.data.length = k + 1 := ⟨n - src.data.length - 1, by omega⟩
  rw [hk, List.replicate_succ, List.take_of_length_le (by omega), List.append_assoc,
    List.cons_append]
  rw [takeWhile_append_stop]
  · intro c hc
    have hne : c ≠ NUL := fun h => hnul (h ▸ hc)
    simpa using hne
  · simp

/-- A source that fills the array leaves no NUL in it. -/
theorem strncpy_full (src : String) (n : Nat) (hlen : n ≤ src.data.length)
    (hnul : NUL ∉ src.data) : strncpy src n = src.data.take n ∧ NUL ∉ strncpy src n := by
  have heq : strncpy src n = src.data.take n := by
    unfold strncpy
    rw [Nat.sub_eq_zero_of_le hlen]
    simp
  refine ⟨heq, ?_⟩
  rw [heq]
  intro h
  exact hnul (List.mem_of_mem_take h)

/-! ### Vehicles -/

/-- Counterexample for C11: for `modelName` "adder" and `vehicleClass` "VEH_CLASS_SPORT" the
handler emits one vehicle whose name reads "ADDER" and whose hash is the hash of "ADDER", but
whose vehicle class reads "_CLASS_SPORT", not "SPORT". -/
theorem adder_vehicle_class_keeps_class_prefix :
    (vehicle_item_step sample_game extraction.start sample_adder).vehicles.map
        (fun veh =>
          (read_c_string veh.m_name (sample_memory.vehicle_name 0 veh),
            read_c_string veh.m_vehicle_class (sample_memory.vehicle_class 0 veh), veh.m_hash))
        = [("ADDER", "_CLASS_SPORT", sample_joaat "ADDER")]
      ∧ ("_CLASS_SPORT" : String) ≠ "SPORT" := by
  decide

/-- Claim C11, amended.  For a vehicle item that is not denylisted and whose hash was not seen
before, the handler appends exactly one vehicle: its hash is `joaat` of the upper-cased
`modelName`, its name field is the truncating copy of the upper-cased `modelName` (read back
as that very name when it is shorter than the array, whatever follows the array in memory),
and its class field is the truncating
copy of `vehicleClass` without its first 3 characters (left zeroed when `vehicleClass` has at
most 3 characters). -/
theorem vehicle_item_emitted (g : Game) (st : extraction) (item : vehicle_node)
    (hcrash : g.is_crash_vehicle (g.joaat (to_upper item.modelName)) = false)
    (hseen : hash_exists st.mapped_vehicles (g.joaat (to_upper item.modelName)) = false) :
    ∃ veh, (vehicle_item_step g st item).vehicles = st.vehicles ++ [veh]
      ∧ veh.m_hash = g.joaat (to_upper item.modelName)
      ∧ veh.m_name = strncpy (to_upper item.modelName) g.sizeof_vehicle_name
      ∧ ((to_upper item.modelName).data.length < g.sizeof_vehicle_name
          → NUL ∉ (to_upper item.modelName).data
          → ∀ following, read_c_string veh.m_name following = to_upper item.modelName)
      ∧ veh.m_vehicle_class
        = (if item.vehicleClass.length > 3 then
            strncpy (item.vehicleClass.drop 3) g.sizeof_vehicle_class
          else List.replicate g.sizeof_vehicle_class NUL) := by
  unfold vehicle_item_step
  simp only
  rw [if_neg (by simp [hcrash]), if_neg (by simp [hseen])]
  exact ⟨_, rfl, rfl, rfl,
    fun hlen hnul following => read_c_string_strncpy _ _ following hlen hnul, rfl⟩

/-- Witness for C11 amended: the item "adder" / "VEH_CLASS_SPORT" on the empty extraction;
the appended vehicle reads "ADDER" and "_CLASS_SPORT". -/
theorem vehicle_item_emitted_witness :
    ∃ veh, (vehicle_item_step sample_game extraction.start sample_adder).vehicles
        = extraction.start.vehicles ++ [veh]
      ∧ veh.m_hash = sample_game.joaat (to_upper sample_adder.modelName)
      ∧ veh.m_name = strncpy (to_upper sample_adder.modelName) sample_game.sizeof_vehicle_name
      ∧ ((to_upper sample_adder.modelName).data.length < sample_game.sizeof_vehicle_name
          → NUL ∉ (to_upper sample_adder.modelName).data
          → ∀ following,
            read_c_string veh.m_name following = to_upper sample_adder.modelName)
      ∧ veh.m_vehicle_class
        = (if sample_adder.vehicleClass.length > 3 then
            strncpy (sample_adder.vehicleClass.drop 3) sample_game.sizeof_vehicle_class
          else List.replicate sample_game.sizeof_vehicle_class NUL) :=
  vehicle_item_emitted sample_game extraction.start sample_adder (by decide) (by decide)

/-- Claim C12, the code at a failing input.  A source that is at least as long as the array
fills it: `strncpy` copies the first `n` characters and writes no NUL.  With a 32-character
`m_name`, the 38-character ped name "CS_EXTREMELY_LONG_PED_MODEL_NAME_ALPHA" leaves the 32
characters "CS_EXTREMELY_LONG_PED_MODEL_NAME" in the field and no NUL among them. -/
theorem long_name_leaves_field_unterminated :
    (∀ (src : String) (n : Nat), n ≤ src.data.length → NUL ∉ src.data →
        strncpy src n = src.data.take n ∧ NUL ∉ strncpy src n)
      ∧ sample_game.sizeof_ped_name = 32
      ∧ (parse_ped_item sample_game extraction.start sample_long_ped_alpha).peds.map
          ped_item.m_name = ["CS_EXTREMELY_LONG_PED_MODEL_NAME".data]
      ∧ ("CS_EXTREMELY_LONG_PED_MODEL_NAME".data).length = 32
      ∧ NUL ∉ "CS_EXTREMELY_LONG_PED_MODEL_NAME".data :=
  ⟨strncpy_full, by decide, by decide, by decide, by decide⟩

/-! ### The update state machine -/

/-- Counterexample for C13: in a process where one rebuild has already run to its end the
latch `completed` is set; a further `update_now` sets `WAITING_FOR_SINGLE_PLAYER`, its job sets
`UPDATING`, and `rebuild_cache` returns at once, pushing no job and leaving the state
`UPDATING`, not `IDLE`. -/
theorem second_update_stays_updating :
    sample_rebuilt_process.completed = true
      ∧ sample_rebuilt_process.service.state = .IDLE
      ∧ (update_now sample_rebuilt_process).service.state = .WAITING_FOR_SINGLE_PLAYER
      ∧ (update_job_start (update_now sample_rebuilt_process)).service.state = .UPDATING
      ∧ (update_job sample_game [sample_peds_meta] id
          (update_now sample_rebuilt_process)).1.service.state = .UPDATING
      ∧ (update_job sample_game [sample_peds_meta] id
          (update_now sample_rebuilt_process)).2 = none := by
  refine ⟨by decide, by decide, by decide, by decide, by decide, by decide⟩

/-- Claim C13, amended.  For every invocation of `update_now` from any starting state, in a
process where no rebuild has yet set the latch `completed`: the state is
`WAITING_FOR_SINGLE_PLAYER` right after the call, `UPDATING` when the queued job starts, and
`IDLE` when that job's `rebuild_cache` call has returned, a write job having been pushed. -/
theorem update_now_reaches_idle (g : Game) (entries : List archive_entry)
    (enrich : extraction → extraction) (p : process) (hlatch : p.completed = false) :
    (update_now p).service.state = .WAITING_FOR_SINGLE_PLAYER
      ∧ (update_job_start (update_now p)).service.state = .UPDATING
      ∧ (update_job g entries enrich (update_now p)).1.service.state = .IDLE
      ∧ (update_job g entries enrich (update_now p)).2.isSome = true := by
  refine ⟨rfl, rfl, ?_, ?_⟩
  · unfold update_job rebuild_cache
    rw [if_neg (by simp [update_job_start, update_now, hlatch])]
    rfl
  · unfold update_job rebuild_cache
    rw [if_neg (by simp [update_job_start, update_now, hlatch])]
    rfl

/-- Witness for C13 amended: the first `update_now` of a process, after `init` found no
cache. -/
theorem update_now_reaches_idle_witness :
    (update_now process.start).service.state = .WAITING_FOR_SINGLE_PLAYER
      ∧ (update_job_start (update_now process.start)).service.state = .UPDATING
      ∧ (update_job sample_game [sample_peds_meta] id
          (update_now process.start)).1.service.state = .IDLE
      ∧ (update_job sample_game [sample_peds_meta] id
          (update_now process.start)).2.isSome = true :=
  update_now_reaches_idle sample_game [sample_peds_meta] id process.start rfl

/-! ### Catalogues loaded from the cache -/

set_option maxRecDepth 8192

theorem load_peds_m_peds (s : gta_data_service) (mem : memory_after) :
    (s.load_peds mem).m_peds
      = s.m_peds_cache.m_data.enum.foldl
        (fun acc slot => map_insert acc (ped_key mem slot) slot.2) [] := by
  unfold gta_data_service.load_peds
  simp only
  generalize s.m_peds_cache.m_data.enum = slots
  generalize ([] : List String) = types0
  generalize ([] : List (String × ped_item)) = map0
  induction slots generalizing types0 map0 with
  | nil => rfl
  | cons r rs ih => exact ih _ _

theorem load_vehicles_m_vehicles (s : gta_data_service) (mem : memory_after) :
    (s.load_vehicles mem).m_vehicles
      = s.m_vehicles_cache.m_data.enum.foldl
        (fun acc slot => map_insert acc (vehicle_key mem slot) slot.2) [] := by
  unfold gta_data_service.load_vehicles
  simp only
  generalize s.m_vehicles_cache.m_data.enum = slots
  generalize ([] : List String) = classes0
  generalize ([] : List (String × vehicle_item)) = map0
  induction slots generalizing classes0 map0 with
  | nil => rfl
  | cons r rs ih => exact ih _ _

theorem map_insert_of_not_mem {α : Type} (m : List (String × α)) (key : String) (value : α)
    (h : key ∉ m.map Prod.fst) : map_insert m key value = m ++ [(key, value)] := by
  unfold map_insert
  rw [if_neg]
  intro hany
  rw [List.any_eq_true] at hany
  obtain ⟨kv, hkv, heq⟩ := hany
  exact h (List.mem_map.2 ⟨kv, hkv, by simpa using heq⟩)

theorem map_insert_of_mem {α : Type} (m : List (String × α)) (key : String) (value : α)
    (h : key ∈ m.map Prod.fst) : map_insert m key value = m := by
  unfold map_insert
  rw [if_pos]
  rw [List.any_eq_true]
  obtain ⟨kv, hkv, heq⟩ := List.mem_map.1 h
  exact ⟨kv, hkv, by simpa using heq⟩

theorem map_insert_fold_distinct {α β : Type} (key : β → String) (val : β → α) (l : List β)
    (acc : List (String × α)) (h : (acc.map Prod.fst ++ l.map key).Nodup) :
    l.foldl (fun acc b => map_insert acc (key b) (val b)) acc
      = acc ++ l.map (fun b => (key b, val b)) := by
  induction l generalizing acc with
  | nil => simp
  | cons r rs ih =>
    have hnot : key r ∉ acc.map Prod.fst := by
      intro hmem
      exact (List.nodup_append.1 h).2.2 hmem (by simp)
    rw [List.foldl_cons, map_insert_of_not_mem _ _ _ hnot, ih]
    · simp
    · simpa using h

theorem scan_by_hash_of_nodup {α β : Type} (m_hash : α → Nat) (l : List β) (key : β → String)
    (val : β → α) (h : (l.map (fun b => m_hash (val b))).Nodup) (b : β) (hb : b ∈ l) :
    scan_by_hash m_hash (l.map (fun x => (key x, val x))) (m_hash (val b))
      = .stored (val b) := by
  induction l with
  | nil => cases hb
  | cons x xs ih =>
    rw [List.map_cons, List.nodup_cons] at h
    rcases List.mem_cons.1 hb with hx | hx
    · subst hx
      simp [scan_by_hash]
    · have hne : m_hash (val x) ≠ m_hash (val b) := by
        intro heq
        exact h.1 (heq ▸ List.mem_map.2 ⟨b, hx, rfl⟩)
      simp only [List.map_cons, scan_by_hash, hne, if_false]
      exact ih h.2 hx

theorem retrievable_of_distinct {α : Type} (m_hash : α → Nat) (key : Nat × α → String)
    (records : List α) (hhash : (records.map m_hash).Nodup)
    (hname : ∀ a ∈ records.enum, ∀ b ∈ records.enum, m_hash a.2 ≠ m_hash b.2 → key a ≠ key b)
    (r : α) (hr : r ∈ records) :
    scan_by_hash m_hash
        (records.enum.foldl (fun acc slot => map_insert acc (key slot) slot.2) [])
        (m_hash r)
      = .stored r := by
  have hslots : (records.enum.map (fun slot => m_hash slot.2)).Nodup := by
    have hmap : records.enum.map (fun slot => m_hash slot.2)
        = (records.enum.map Prod.snd).map m_hash := by
      rw [List.map_map]
      rfl
    rw [hmap, List.enum_map_snd]
    exact hhash
  have hkeys : (records.enum.map key).Nodup := by
    refine List.Nodup.map_on ?_ (List.Nodup.of_map _ hslots)
    intro a ha b hb hkey
    by_contra hab
    have hne : m_hash a.2 ≠ m_hash b.2 := fun heq =>
      hab (List.inj_on_of_nodup_map hslots ha hb heq)
    exact hname a ha b hb hne hkey
  obtain ⟨i, hi⟩ := List.mem_iff_getElem?.1 hr
  have hmem : (i, r) ∈ records.enum := List.mk_mem_enum_iff_getElem?.2 hi
  rw [map_insert_fold_distinct key Prod.snd records.enum [] (by simpa using hkeys),
    List.nil_append]
  exact scan_by_hash_of_nodup m_hash records.enum key Prod.snd hslots (i, r) hmem

/-- Claim C14.  After `load_peds` (respectively `load_vehicles`) over a cache buffer whose
records have pairwise distinct hashes, and in which records with distinct hashes never share a
name (the string the loader reads from the name field and keys the catalogue by), every record
of the buffer is retrievable: the lookup by its hash returns that record, not the empty
object. -/
theorem cached_records_retrievable (s : gta_data_service) (mem : memory_after)
    (hped_hash : (s.m_peds_cache.m_data.map ped_item.m_hash).Nodup)
    (hped_name : ∀ a ∈ s.m_peds_cache.m_data.enum, ∀ b ∈ s.m_peds_cache.m_data.enum,
      a.2.m_hash ≠ b.2.m_hash → ped_key mem a ≠ ped_key mem b)
    (hveh_hash : (s.m_vehicles_cache.m_data.map vehicle_item.m_hash).Nodup)
    (hveh_name : ∀ a ∈ s.m_vehicles_cache.m_data.enum, ∀ b ∈ s.m_vehicles_cache.m_data.enum,
      a.2.m_hash ≠ b.2.m_hash → vehicle_key mem a ≠ vehicle_key mem b) :
    (∀ r ∈ s.m_peds_cache.m_data, (s.load_peds mem).ped_by_hash r.m_hash = .stored r)
      ∧ ∀ r ∈ s.m_vehicles_cache.m_data,
        (s.load_vehicles mem).vehicle_by_hash r.m_hash = .stored r := by
  constructor
  · intro r hr
    unfold gta_data_service.ped_by_hash
    rw [load_peds_m_peds]
    exact retrievable_of_distinct ped_item.m_hash (ped_key mem) _ hped_hash hped_name r hr
  · intro r hr
    unfold gta_data_service.vehicle_by_hash
    rw [load_vehicles_m_vehicles]
    exact retrievable_of_distinct vehicle_item.m_hash (vehicle_key mem) _ hveh_hash hveh_name
      r hr

/-- Witness for C14: a cache of two peds and two vehicles with distinct hashes and distinct
names. -/
theorem cached_records_retrievable_witness :
    (∀ r ∈ (sample_loaded_service
          [sample_ped_record "A_C_BOAR", sample_ped_record "A_C_CAT_01"]
          [sample_vehicle_record "ADDER" "SPORT",
           sample_vehicle_record "ZENTORNO" "SPORT"]).m_peds_cache.m_data,
        ((sample_loaded_service
          [sample_ped_record "A_C_BOAR", sample_ped_record "A_C_CAT_01"]
          [sample_vehicle_record "ADDER" "SPORT",
           sample_vehicle_record "ZENTORNO" "SPORT"]).load_peds sample_memory).ped_by_hash
            r.m_hash
          = .stored r)
      ∧ ∀ r ∈ (sample_loaded_service
          [sample_ped_record "A_C_BOAR", sample_ped_record "A_C_CAT_01"]
          [sample_vehicle_record "ADDER" "SPORT",
           sample_vehicle_record "ZENTORNO" "SPORT"]).m_vehicles_cache.m_data,
        ((sample_loaded_service
          [sample_ped_record "A_C_BOAR", sample_ped_record "A_C_CAT_01"]
          [sample_vehicle_record "ADDER" "SPORT",
           sample_vehicle_record "ZENTORNO" "SPORT"]).load_vehicles
            sample_memory).vehicle_by_hash r.m_hash
          = .stored r :=
  cached_records_retrievable
    (sample_loaded_service
      [sample_ped_record "A_C_BOAR", sample_ped_record "A_C_CAT_01"]
      [sample_vehicle_record "ADDER" "SPORT", sample_vehicle_record "ZENTORNO" "SPORT"])
    sample_memory (by decide) (by decide) (by decide) (by decide)

/-- The name condition of C14 cannot be dropped: two cached peds with the hashes 1 and 2 and
the one name "A_C_BOAR" are keyed alike, `insert` keeps the first, and the lookup of hash 2
returns the empty object. -/
theorem shared_name_hides_second_ped :
    ((sample_loaded_service
        [{ sample_ped_record "A_C_BOAR" with m_hash := 1 },
         { sample_ped_record "A_C_BOAR" with m_hash := 2 }] []).load_peds
        sample_memory).ped_by_hash 2
      = .empty := by
  decide

end big
